import Mathlib

/-! # todo-api: service, repository and controller layer

A shallow embedding of the Go packages `internal/models`, `internal/dto`,
`internal/repositories`, `internal/services` and `internal/controllers`.

* `time.Time` is an instant, an integer number of nanoseconds since Go's zero
  time (January 1 of year 1, 00:00:00 UTC); location and monotonic reading
  play no part in `Before` and `Truncate` and are left out.
* Go pointers that are only tested against `nil` and dereferenced are `Option`s.
* `uint` identifiers are natural numbers, `int` is `Int`; no arithmetic is done
  on either in the embedded code.
* A function using an interface value takes the interface as a structure of
  state-passing functions; every call through it is appended to a call log.
-/

set_option autoImplicit false

namespace TodoApi

/-! ## Go standard library: `time`, `errors`, `fmt` -/

namespace time

/-- Instant of a `time.Time`, in nanoseconds since the zero time. -/
abbrev Time := Int

/-- Duration constant `time.Second`, in nanoseconds. -/
def Second : Int := 1000000000

/-- Duration constant `time.Hour`, in nanoseconds. -/
def Hour : Int := 3600 * Second

/-- Method `t.Before(u)`: the instant `t` is earlier than `u`. -/
def Before (t u : Time) : Bool := decide (t < u)

/-- Method `t.Truncate(d)`: `t` rounded down to a multiple of `d` since the zero
time; unchanged when `d <= 0`. -/
def Truncate (t : Time) (d : Int) : Time :=
  if d ≤ 0 then t else t - t % d

/-- Helper `isDigit` of package `time`, on one character. -/
def isDigit (c : Char) : Bool := decide (48 ≤ c.toNat) && decide (c.toNat ≤ 57)

/-- Helper `getnum(s, fixed)`: one or two leading decimal digits and the rest;
with `fixed`, two digits are required. -/
def getnum (s : List Char) (fixed : Bool) : Option (Nat × List Char) :=
  match s with
  | [] => none
  | c0 :: rest =>
    if !isDigit c0 then none
    else
      match rest with
      | [] => if fixed then none else some (c0.toNat - 48, rest)
      | c1 :: rest1 =>
        if !isDigit c1 then
          if fixed then none else some (c0.toNat - 48, rest)
        else some ((c0.toNat - 48) * 10 + (c1.toNat - 48), rest1)

/-- Helper `skip(value, "-")`: the literal dash of the layout must come next. -/
def skipDash (value : List Char) : Option (List Char) :=
  match value with
  | [] => none
  | c :: rest => if c = '-' then some rest else none

/-- Helper `isLeap(year)`. -/
def isLeap (year : Int) : Bool :=
  decide (year % 4 = 0) && (decide (year % 100 ≠ 0) || decide (year % 400 = 0))

/-- Table `daysBefore`: days in a non-leap year before month `m + 1` starts. -/
def daysBefore (m : Nat) : Nat :=
  [0, 31, 59, 90, 120, 151, 181, 212, 243, 273, 304, 334, 365].getD m 0

/-- Helper `daysIn(m, year)` for a month number `1 <= m <= 12`. -/
def daysIn (m : Nat) (year : Int) : Nat :=
  if m = 2 && isLeap year then 29 else daysBefore m - daysBefore (m - 1)

/-- Call `time.Date(year, month, day, 0, 0, 0, 0, time.UTC)` for a month in
`1..12` and a day of that month: midnight UTC of the calendar date, counted
from the zero time over the proleptic Gregorian calendar. -/
def Date (year : Int) (month day : Nat) : Time :=
  let y := year - 1
  let days : Int := 365 * y + y / 4 - y / 100 + y / 400
    + (daysBefore (month - 1) : Int)
    + (if decide (2 < month) && isLeap year then 1 else 0)
    + ((day : Int) - 1)
  days * (24 * Hour)

/-- Call `time.Parse("2006-01-02", value)`; `none` is a non-nil error. The
layout is a four-digit year, a dash, a two-digit month, a dash and a two-digit
day with nothing after it; the month must lie in `1..12` and the day in the
month. The bytes that can match are ASCII, so characters stand for bytes. -/
def Parse (value : String) : Option Time :=
  match value.toList with
  | y0 :: y1 :: y2 :: y3 :: afterYear =>
    if !(isDigit y0 && isDigit y1 && isDigit y2 && isDigit y3) then none
    else
      let year : Int :=
        (((y0.toNat - 48) * 1000 + (y1.toNat - 48) * 100 + (y2.toNat - 48) * 10
          + (y3.toNat - 48) : Nat) : Int)
      match skipDash afterYear with
      | none => none
      | some v1 =>
        match getnum v1 true with
        | none => none
        | some (month, v2) =>
          if month = 0 || 12 < month then none
          else
            match skipDash v2 with
            | none => none
            | some v3 =>
              match getnum v3 true with
              | none => none
              | some (day, v4) =>
                if !v4.isEmpty then none
                else if day < 1 || daysIn month year < day then none
                else some (Date year month day)
  | _ => none

end time

open time (Time)

namespace strconv

/-- Value of one byte as a digit in `ParseUint`: `0-9`, then letters of either
case from 10 up; `none` for any other byte. -/
def digitOf (c : Char) : Option Nat :=
  if 48 ≤ c.toNat ∧ c.toNat ≤ 57 then some (c.toNat - 48)
  else if 97 ≤ c.toNat ∧ c.toNat ≤ 122 then some (c.toNat - 97 + 10)
  else if 65 ≤ c.toNat ∧ c.toNat ≤ 90 then some (c.toNat - 65 + 10)
  else none

/-- The digit loop of `ParseUint`: `none` on a syntax or a range error. -/
def parseUintLoop (base maxVal : Nat) : List Char → Nat → Option Nat
  | [], n => some n
  | c :: rest, n =>
    match digitOf c with
    | none => none
    | some d =>
      if base ≤ d then none
      else if (2 ^ 64 - 1) / base + 1 ≤ n then none
      else
        let n1 := n * base + d
        if 2 ^ 64 ≤ n1 ∨ maxVal < n1 then none
        else parseUintLoop base maxVal rest n1

/-- Call `strconv.ParseUint(s, base, bitSize)` with an explicit base `2..36`
and a bit size `1..64`; `none` is a non-nil error (invalid syntax or value out
of range), which is all the handlers look at. No sign and no underscore is
accepted. -/
def ParseUint (s : String) (base bitSize : Nat) : Option Nat :=
  if s.toList.isEmpty then none
  else if base < 2 ∨ 36 < base then none
  else parseUintLoop base (2 ^ bitSize - 1) s.toList 0

/-- Call `strconv.ParseBool(str)`; `none` is a non-nil error. -/
def ParseBool (str : String) : Option Bool :=
  if str ∈ ["1", "t", "T", "TRUE", "true", "True"] then some true
  else if str ∈ ["0", "f", "F", "FALSE", "false", "False"] then some false
  else none

end strconv

/-- A Go `error` value: one made by `errors.New`, or one made by `fmt.Errorf`
with a `%w` verb, which keeps the wrapped error. -/
inductive GoError where
  | errorString (s : String)
  | wrapError (msg : String) (err : GoError)
  deriving DecidableEq, Repr

/-- Method `Error()` of an error value. -/
def GoError.Error : GoError → String
  | .errorString s => s
  | .wrapError msg _ => msg

namespace errors

/-- Function `errors.New(text)`. -/
def New (text : String) : GoError := .errorString text

end errors

namespace fmt

/-- Call `fmt.Errorf(lead + "%w", err)`: the message is `lead` followed by the
message of `err`, and `err` is kept as the wrapped error. -/
def Errorf_w (lead : String) (err : GoError) : GoError :=
  .wrapError (lead ++ err.Error) err

end fmt

/-! ## `internal/models` -/

namespace gorm

/-- Embedded struct `gorm.Model`; `DeletedAt` is the nullable soft-delete mark. -/
structure Model where
  ID : Nat
  CreatedAt : Time
  UpdatedAt : Time
  DeletedAt : Option Time
  deriving DecidableEq, Repr, Inhabited

/-- Sentinel `gorm.ErrRecordNotFound`. -/
def ErrRecordNotFound : GoError := errors.New "record not found"

end gorm

namespace models

/-- Struct `models.Task`. -/
structure Task where
  Model : gorm.Model
  Title : String
  Description : String
  Date : Time
  Completed : Bool
  deriving DecidableEq, Repr, Inhabited

end models

/-! ## `internal/dto` -/

namespace dto

/-- Struct `dto.CreateTaskServiceRequest`. -/
structure CreateTaskServiceRequest where
  Title : String
  Description : String
  Date : Time
  deriving DecidableEq, Repr

/-- Struct `dto.UpdateTaskServiceRequest`; a `nil` pointer is `none`. -/
structure UpdateTaskServiceRequest where
  Title : Option String
  Description : Option String
  Date : Option Time
  Completed : Option Bool
  deriving DecidableEq, Repr

/-- Struct `dto.TaskFilterRequest`, as bound from the query string. -/
structure TaskFilterRequest where
  Completed : Option String
  DateFrom : Option String
  DateTo : Option String
  Limit : Option Int
  Offset : Option Int
  deriving DecidableEq, Repr

/-- Struct `dto.TaskFilter`. -/
structure TaskFilter where
  Completed : Option Bool
  DateFrom : Option Time
  DateTo : Option Time
  Limit : Int
  Offset : Int
  deriving DecidableEq, Repr

/-- What the handlers put in the `Data any` field of a response: a task or a
slice of tasks. -/
inductive Data where
  | task (t : models.Task)
  | tasks (ts : List models.Task)
  deriving DecidableEq, Repr

/-- Struct `dto.Response`; a `nil` `Data` is `none`. -/
structure Response where
  Status : String
  Message : String
  Data : Option Data
  deriving DecidableEq, Repr

/-- Function `dto.SuccessResponse`. -/
def SuccessResponse (msg : String) (data : Option Data) : Response :=
  { Status := "success", Message := msg, Data := data }

/-- Function `dto.ErrorResponse`. -/
def ErrorResponse (message : String) : Response :=
  { Status := "error", Message := message, Data := none }

end dto

/-! ## The `map[string]interface{}` of an update -/

/-- A value stored in the updates map: a string, a `*time.Time` (the request's
date pointer is stored as it is), or a bool. -/
inductive Value where
  | string (s : String)
  | timePtr (t : Time)
  | bool (b : Bool)
  deriving DecidableEq, Repr

/-- A `map[string]interface{}` as an association list with distinct keys, in
order of first insertion. -/
abbrev UpdateMap := List (String × Value)

/-- Assignment `m[k] = v`. -/
def mapSet (m : UpdateMap) (k : String) (v : Value) : UpdateMap :=
  if m.any (fun e => e.1 == k) then
    m.map (fun e => if e.1 == k then (k, v) else e)
  else
    m ++ [(k, v)]

/-- Lookup `m[k]` with its presence flag. -/
def mapGet (m : UpdateMap) (k : String) : Option Value :=
  (m.find? (fun e => e.1 == k)).map (fun e => e.2)

/-- Builtin `len(m)`. -/
def mapLen (m : UpdateMap) : Nat := m.length

/-! ## `internal/repositories`: the interface -/

namespace repositories

/-- Interface `TaskRepository` over a storage state `σ`. `Create` receives the
task behind the pointer and returns what the pointer holds after the call. -/
structure TaskRepository (σ : Type) where
  Create : models.Task → σ → (models.Task × Option GoError) × σ
  GetByID : Nat → σ → (Option models.Task × Option GoError) × σ
  Update : Nat → UpdateMap → σ → Option GoError × σ
  Delete : Nat → σ → Option GoError × σ
  List : dto.TaskFilter → σ → (List models.Task × Option GoError) × σ

/-- One call made through the `TaskRepository` interface, with its arguments. -/
inductive Call where
  | Create (task : models.Task)
  | GetByID (id : Nat)
  | Update (id : Nat) (updates : UpdateMap)
  | Delete (id : Nat)
  | List (filter : dto.TaskFilter)
  deriving DecidableEq, Repr

end repositories

open repositories (TaskRepository)

/-- What a service method runs against: the storage state behind the repository
and the log of the repository calls made so far, oldest first. -/
structure World (σ : Type) where
  store : σ
  calls : List repositories.Call

namespace World

variable {σ : Type}

/-- Call `s.repo.Create(ctx, task)`. -/
def Create (repo : TaskRepository σ) (task : models.Task) (w : World σ) :
    (models.Task × Option GoError) × World σ :=
  let r := repo.Create task w.store
  (r.1, { store := r.2, calls := w.calls ++ [.Create task] })

/-- Call `s.repo.GetByID(ctx, id)`. -/
def GetByID (repo : TaskRepository σ) (id : Nat) (w : World σ) :
    (Option models.Task × Option GoError) × World σ :=
  let r := repo.GetByID id w.store
  (r.1, { store := r.2, calls := w.calls ++ [.GetByID id] })

/-- Call `s.repo.Update(ctx, id, updates)`. -/
def Update (repo : TaskRepository σ) (id : Nat) (updates : UpdateMap) (w : World σ) :
    Option GoError × World σ :=
  let r := repo.Update id updates w.store
  (r.1, { store := r.2, calls := w.calls ++ [.Update id updates] })

/-- Call `s.repo.Delete(ctx, id)`. -/
def Delete (repo : TaskRepository σ) (id : Nat) (w : World σ) :
    Option GoError × World σ :=
  let r := repo.Delete id w.store
  (r.1, { store := r.2, calls := w.calls ++ [.Delete id] })

/-- Call `s.repo.List(ctx, filter)`. -/
def List (repo : TaskRepository σ) (filter : dto.TaskFilter) (w : World σ) :
    (List models.Task × Option GoError) × World σ :=
  let r := repo.List filter w.store
  (r.1, { store := r.2, calls := w.calls ++ [.List filter] })

end World

/-! ## `internal/services`: `TaskServiceImpl` -/

namespace services

namespace TaskServiceImpl

variable {σ : Type}

/-- The composite literal `&models.Task{...}` of `CreateTask`: the embedded
`gorm.Model` is left at its zero value. -/
def newTask (req : dto.CreateTaskServiceRequest) : models.Task :=
  { Model := { ID := 0, CreatedAt := 0, UpdatedAt := 0, DeletedAt := none }
    Title := req.Title
    Description := req.Description
    Date := req.Date
    Completed := false }

/-- Method `TaskServiceImpl.CreateTask`; `now` is the reading of `time.Now()`. -/
def CreateTask (repo : TaskRepository σ) (now : Time) (req : dto.CreateTaskServiceRequest)
    (w : World σ) : (Option models.Task × Option GoError) × World σ :=
  if time.Before req.Date (time.Truncate now (24 * time.Hour)) then
    ((none, some (errors.New "task date cannot be in the past")), w)
  else
    let task := newTask req
    let r := World.Create repo task w
    match r.1.2 with
    | some err => ((none, some (fmt.Errorf_w "failed to create task: " err)), r.2)
    | none => ((some r.1.1, none), r.2)

/-- Method `TaskServiceImpl.GetTaskByID`. -/
def GetTaskByID (repo : TaskRepository σ) (id : Nat) (w : World σ) :
    (Option models.Task × Option GoError) × World σ :=
  let r := World.GetByID repo id w
  match r.1.2 with
  | some err => ((none, some (fmt.Errorf_w "failed to get task: " err)), r.2)
  | none => ((r.1.1, none), r.2)

/-- The `updates` map that `UpdateTask` fills from the request before its
length test. -/
def updatesOf (req : dto.UpdateTaskServiceRequest) : UpdateMap :=
  let updates : UpdateMap := []
  let updates := match req.Title with
    | some title => mapSet updates "title" (.string title)
    | none => updates
  let updates := match req.Description with
    | some description => mapSet updates "description" (.string description)
    | none => updates
  let updates := match req.Date with
    | some date => mapSet updates "date" (.timePtr date)
    | none => updates
  let updates := match req.Completed with
    | some completed => mapSet updates "completed" (.bool completed)
    | none => updates
  updates

/-- Method `TaskServiceImpl.UpdateTask`. -/
def UpdateTask (repo : TaskRepository σ) (id : Nat) (req : dto.UpdateTaskServiceRequest)
    (w : World σ) : (Option models.Task × Option GoError) × World σ :=
  let updates := updatesOf req
  if mapLen updates == 0 then
    ((none, some (errors.New "no fields to update")), w)
  else
    let r := World.Update repo id updates w
    match r.1 with
    | some err => ((none, some (fmt.Errorf_w "error while updating: " err)), r.2)
    | none => World.GetByID repo id r.2

/-- Method `TaskServiceImpl.DeleteTask`. -/
def DeleteTask (repo : TaskRepository σ) (id : Nat) (w : World σ) :
    Option GoError × World σ :=
  let r := World.Delete repo id w
  match r.1 with
  | some err => (some (fmt.Errorf_w "failed to delete task: " err), r.2)
  | none => (none, r.2)

/-- Method `TaskServiceImpl.ListTasks`. The result slice is `nil` on error. -/
def ListTasks (repo : TaskRepository σ) (filter : dto.TaskFilter) (w : World σ) :
    (List models.Task × Option GoError) × World σ :=
  let filter := if filter.Limit ≤ 0 then { filter with Limit := 10 } else filter
  let filter := if filter.Offset < 0 then { filter with Offset := 0 } else filter
  let repoFilter : dto.TaskFilter :=
    { Completed := filter.Completed
      DateFrom := filter.DateFrom
      DateTo := filter.DateTo
      Limit := filter.Limit
      Offset := filter.Offset }
  let r := World.List repo repoFilter w
  match r.1.2 with
  | some err => (([], some (fmt.Errorf_w "failed to list tasks: " err)), r.2)
  | none => ((r.1.1, none), r.2)

end TaskServiceImpl

end services

/-! ## `internal/repositories`: `taskRepository` over a model of the table

The repository runs its statements through gorm against PostgreSQL. The table
`tasks` is modelled as the list of its rows in storage order together with the
next value of the id sequence. Each method is the statement gorm issues for it
(the statements are the ones `task_repository_test.go` expects), evaluated on
that list. Column values are stored as given, and no statement fails for a
reason outside the table (connection, column size). -/

namespace gorm

/-- The database handle `*gorm.DB`: the rows of table `tasks`, deleted ones
included, and the next id the sequence hands out. -/
structure DB where
  tasks : List models.Task
  seq : Nat
  deriving DecidableEq, Repr

/-- One condition of a `WHERE` clause over `tasks`. -/
inductive Cond where
  | idEq (id : Nat)
  | completedEq (b : Bool)
  | dateBetween (a b : Time)
  | dateGe (a : Time)
  | dateLe (b : Time)
  | deletedAtIsNull
  deriving DecidableEq, Repr

/-- Truth of a condition on a row. -/
def Cond.holds : Cond → models.Task → Bool
  | .idEq id, t => decide (t.Model.ID = id)
  | .completedEq b, t => t.Completed == b
  | .dateBetween a b, t => decide (a ≤ t.Date) && decide (t.Date ≤ b)
  | .dateGe a, t => decide (a ≤ t.Date)
  | .dateLe b, t => decide (t.Date ≤ b)
  | .deletedAtIsNull, t => t.Model.DeletedAt.isNone

/-- A query under construction: its conditions, joined by `AND`. -/
abbrev Query := List Cond

/-- Method `query.Where(cond)`. -/
def Query.Where (query : Query) (c : Cond) : Query := query ++ [c]

/-- Truth of the whole `WHERE` clause on a row. -/
def Query.holds (query : Query) (t : models.Task) : Bool :=
  query.all (fun c => c.holds t)

/-- The scope gorm adds to every read, update and delete of a model with a
`DeletedAt` field: `"tasks"."deleted_at" IS NULL`. -/
def softDeleteScope (query : Query) : Query := query.Where .deletedAtIsNull

/-- Clause `LIMIT`: written (and applied) when the limit is not negative. -/
def applyLimit (limit : Int) (rows : List models.Task) : List models.Task :=
  if 0 ≤ limit then rows.take limit.toNat else rows

/-- Clause `OFFSET`: written (and applied) when the offset is positive. -/
def applyOffset (offset : Int) (rows : List models.Task) : List models.Task :=
  if 0 < offset then rows.drop offset.toNat else rows

/-- One `SET column = value` of an update from a map; `none` when the key is
not a column of the four or the value has another type than the column. -/
def assign (t : models.Task) (e : String × Value) : Option models.Task :=
  match e with
  | ("title", .string s) => some { t with Title := s }
  | ("description", .string s) => some { t with Description := s }
  | ("date", .timePtr d) => some { t with Date := d }
  | ("completed", .bool b) => some { t with Completed := b }
  | _ => none

/-- All assignments of an updates map on one row. -/
def assignAll (updates : UpdateMap) (t : models.Task) : Option models.Task :=
  updates.foldlM assign t

end gorm

namespace repositories

namespace taskRepository

/-- Method `taskRepository.Create`: `INSERT INTO "tasks" ... RETURNING "id"`.
A zero id is taken from the sequence, zero timestamps are set to `now`, and
the id and timestamps are written back through the pointer. An id already in
the table violates the primary key. -/
def Create (now : Time) (task : models.Task) (db : gorm.DB) :
    (models.Task × Option GoError) × gorm.DB :=
  let id := if task.Model.ID = 0 then db.seq else task.Model.ID
  let row : models.Task :=
    { task with
      Model :=
        { ID := id
          CreatedAt := if task.Model.CreatedAt = 0 then now else task.Model.CreatedAt
          UpdatedAt := if task.Model.UpdatedAt = 0 then now else task.Model.UpdatedAt
          DeletedAt := task.Model.DeletedAt } }
  if db.tasks.any (fun t => decide (t.Model.ID = id)) then
    ((task, some (errors.New "duplicate key value violates unique constraint")), db)
  else
    ((row, none),
      { tasks := db.tasks ++ [row]
        seq := if task.Model.ID = 0 then db.seq + 1 else db.seq })

/-- Method `taskRepository.GetByID`: `SELECT * FROM "tasks" WHERE "tasks"."id" = $1
AND "tasks"."deleted_at" IS NULL ORDER BY "tasks"."id" LIMIT 1`; no row is
`gorm.ErrRecordNotFound`. -/
def GetByID (id : Nat) (db : gorm.DB) : (Option models.Task × Option GoError) × gorm.DB :=
  let query := gorm.softDeleteScope (gorm.Query.Where [] (.idEq id))
  match db.tasks.find? query.holds with
  | some task => ((some task, none), db)
  | none => ((none, some gorm.ErrRecordNotFound), db)

/-- Method `taskRepository.Update`: `UPDATE "tasks" SET ...,"updated_at"=now
WHERE id = $n AND "tasks"."deleted_at" IS NULL`. A key that is no column, or a
value of the wrong type, fails the statement and changes nothing. -/
def Update (now : Time) (id : Nat) (updates : UpdateMap) (db : gorm.DB) :
    Option GoError × gorm.DB :=
  let query := gorm.softDeleteScope (gorm.Query.Where [] (.idEq id))
  if updates.all (fun e => (gorm.assign default e).isSome) then
    (none,
      { db with
        tasks := db.tasks.map (fun t =>
          if query.holds t then
            match gorm.assignAll updates t with
            | some t1 => { t1 with Model := { t1.Model with UpdatedAt := now } }
            | none => t
          else t) })
  else
    (some (errors.New "invalid column or value in update"), db)

/-- Method `taskRepository.Delete`: the soft delete `UPDATE "tasks" SET
"deleted_at"=now WHERE "tasks"."id" = $n AND "tasks"."deleted_at" IS NULL`. -/
def Delete (now : Time) (id : Nat) (db : gorm.DB) : Option GoError × gorm.DB :=
  let query := gorm.softDeleteScope (gorm.Query.Where [] (.idEq id))
  (none,
    { db with
      tasks := db.tasks.map (fun t =>
        if query.holds t then { t with Model := { t.Model with DeletedAt := some now } }
        else t) })

/-- The conditions `taskRepository.List` puts on its query, before gorm adds the
soft-delete scope. -/
def listQuery (filter : dto.TaskFilter) : gorm.Query :=
  let query : gorm.Query := []
  let query := match filter.Completed with
    | some completed => query.Where (.completedEq completed)
    | none => query
  let query :=
    if filter.DateFrom.isSome || filter.DateTo.isSome then
      match filter.DateFrom, filter.DateTo with
      | some dateFrom, some dateTo => query.Where (.dateBetween dateFrom dateTo)
      | some dateFrom, none => query.Where (.dateGe dateFrom)
      | none, some dateTo => query.Where (.dateLe dateTo)
      | none, none => query
    else query
  query

/-- The whole condition of the `SELECT` of `taskRepository.List`. -/
def listCondition (filter : dto.TaskFilter) (t : models.Task) : Bool :=
  (gorm.softDeleteScope (listQuery filter)).holds t

/-- Method `taskRepository.List`: `SELECT * FROM "tasks" WHERE ... AND
"tasks"."deleted_at" IS NULL LIMIT l OFFSET o`, rows in storage order. -/
def List (filter : dto.TaskFilter) (db : gorm.DB) :
    (List models.Task × Option GoError) × gorm.DB :=
  let matching := db.tasks.filter (listCondition filter)
  ((gorm.applyLimit filter.Limit (gorm.applyOffset filter.Offset matching), none), db)

end taskRepository

/-- Constructor `NewTaskRepositoryImpl(db)`; `now` is the time the database
layer reads for its timestamps. -/
def NewTaskRepositoryImpl (now : Time) : TaskRepository gorm.DB where
  Create := taskRepository.Create now
  GetByID := taskRepository.GetByID
  Update := taskRepository.Update now
  Delete := taskRepository.Delete now
  List := taskRepository.List

end repositories

/-! ## `internal/services`: the interface, and the implementation as one -/

namespace services

/-- Interface `TaskService` over a state `ω`. -/
structure TaskService (ω : Type) where
  CreateTask : dto.CreateTaskServiceRequest → ω → (Option models.Task × Option GoError) × ω
  GetTaskByID : Nat → ω → (Option models.Task × Option GoError) × ω
  UpdateTask : Nat → dto.UpdateTaskServiceRequest → ω →
    (Option models.Task × Option GoError) × ω
  DeleteTask : Nat → ω → Option GoError × ω
  ListTasks : dto.TaskFilter → ω → (List models.Task × Option GoError) × ω

/-- One call made through the `TaskService` interface, with its arguments. -/
inductive Call where
  | CreateTask (req : dto.CreateTaskServiceRequest)
  | GetTaskByID (id : Nat)
  | UpdateTask (id : Nat) (req : dto.UpdateTaskServiceRequest)
  | DeleteTask (id : Nat)
  | ListTasks (filter : dto.TaskFilter)
  deriving DecidableEq, Repr

/-- Constructor `NewTaskServiceImpl(repo)` as a `TaskService`; `now` is the
reading of `time.Now()`. -/
def NewTaskServiceImpl {σ : Type} (repo : TaskRepository σ) (now : Time) :
    TaskService (World σ) where
  CreateTask := TaskServiceImpl.CreateTask repo now
  GetTaskByID := TaskServiceImpl.GetTaskByID repo
  UpdateTask := TaskServiceImpl.UpdateTask repo
  DeleteTask := TaskServiceImpl.DeleteTask repo
  ListTasks := TaskServiceImpl.ListTasks repo

end services

open services (TaskService)

/-! ## `internal/controllers` -/

namespace http

/-- Constant `http.StatusOK`. -/
def StatusOK : Nat := 200

/-- Constant `http.StatusBadRequest`. -/
def StatusBadRequest : Nat := 400

/-- Constant `http.StatusInternalServerError`. -/
def StatusInternalServerError : Nat := 500

end http

namespace gin

/-- What a handler leaves on its `*gin.Context`: a `ctx.JSON(code, obj)`, a bare
`ctx.Status(code)`, or a nil-pointer dereference before anything is written. -/
inductive Result where
  | JSON (code : Nat) (obj : dto.Response)
  | Status (code : Nat)
  | nilDereference
  deriving DecidableEq, Repr

end gin

/-- What a handler runs against: the state behind the service and the log of
the service calls made so far, oldest first. -/
structure Server (ω : Type) where
  service : ω
  calls : List services.Call

namespace Server

variable {ω : Type}

/-- Call `c.service.GetTaskByID(ctx, id)`. -/
def GetTaskByID (service : TaskService ω) (id : Nat) (c : Server ω) :
    (Option models.Task × Option GoError) × Server ω :=
  let r := service.GetTaskByID id c.service
  (r.1, { service := r.2, calls := c.calls ++ [.GetTaskByID id] })

/-- Call `c.service.ListTasks(ctx, filter)`. -/
def ListTasks (service : TaskService ω) (filter : dto.TaskFilter) (c : Server ω) :
    (List models.Task × Option GoError) × Server ω :=
  let r := service.ListTasks filter c.service
  (r.1, { service := r.2, calls := c.calls ++ [.ListTasks filter] })

end Server

namespace controllers

variable {ω : Type}

/-- Function `convertToServiceFilter`. -/
def convertToServiceFilter (req : dto.TaskFilterRequest) : dto.TaskFilter :=
  let filter : dto.TaskFilter :=
    { Completed := none, DateFrom := none, DateTo := none, Limit := 10, Offset := 0 }
  let filter := match req.Completed with
    | some completed =>
      match strconv.ParseBool completed with
      | some val => { filter with Completed := some val }
      | none => filter
    | none => filter
  let filter := match req.DateFrom with
    | some dateFrom =>
      match time.Parse dateFrom with
      | some date => { filter with DateFrom := some date }
      | none => filter
    | none => filter
  let filter := match req.DateTo with
    | some dateTo =>
      match time.Parse dateTo with
      | some date => { filter with DateTo := some date }
      | none => filter
    | none => filter
  let filter := match req.Limit with
    | some limit => if 0 < limit then { filter with Limit := limit } else filter
    | none => filter
  let filter := match req.Offset with
    | some offset => if 0 ≤ offset then { filter with Offset := offset } else filter
    | none => filter
  filter

namespace TaskController

/-- Handler `TaskController.GetTaskByID`; `idParam` is `ctx.Param("id")`. -/
def GetTaskByID (service : TaskService ω) (idParam : String) (c : Server ω) :
    gin.Result × Server ω :=
  match strconv.ParseUint idParam 10 32 with
  | none => (.JSON http.StatusBadRequest (dto.ErrorResponse "Invalid task ID format"), c)
  | some id =>
    let r := Server.GetTaskByID service id c
    match r.1.2 with
    | some err => (.JSON http.StatusInternalServerError (dto.ErrorResponse err.Error), r.2)
    | none =>
      match r.1.1 with
      | none => (.nilDereference, r.2)
      | some task =>
        (.JSON http.StatusOK
          (dto.SuccessResponse "Task retrieved successfully" (some (.task task))), r.2)

/-- Handler `TaskController.ListTasks`; `bound` is what `parseTaskFilter` returns,
the outcome of `ctx.ShouldBindQuery` on the query string. -/
def ListTasks (service : TaskService ω) (bound : Except GoError dto.TaskFilterRequest)
    (c : Server ω) : gin.Result × Server ω :=
  match bound with
  | .error err => (.JSON http.StatusBadRequest (dto.ErrorResponse err.Error), c)
  | .ok filterReq =>
    let filter := convertToServiceFilter filterReq
    let r := Server.ListTasks service filter c
    match r.1.2 with
    | some err => (.JSON http.StatusInternalServerError (dto.ErrorResponse err.Error), r.2)
    | none =>
      (.JSON http.StatusOK
        (dto.SuccessResponse "Tasks retrieved successfully" (some (.tasks r.1.1))), r.2)

end TaskController

end controllers

/-! ## Request bodies: `dto` structs with `binding` tags, and `ShouldBindJSON`

`ctx.ShouldBindJSON(&req)` decodes the JSON body into the struct and then runs
the validator over the `binding` tags. The decoding is taken as given (its
outcome is an argument of the handler); the checks are the tags of
`dto/task.go`, with the validator's rules: `required` and `omitempty` test a
string value for being non-empty, `omitempty` on a pointer skips the rest of
the tag only when the pointer is nil, and `min` and `max` bound the number of
characters of a string. -/

namespace dto

/-- Struct `dto.CreateTaskRequest`. -/
structure CreateTaskRequest where
  Title : String
  Description : String
  DateString : String
  deriving DecidableEq, Repr

/-- Struct `dto.UpdateTaskRequest`; a `nil` pointer is `none`. -/
structure UpdateTaskRequest where
  Title : Option String
  Description : Option String
  DateString : Option String
  Completed : Option Bool
  deriving DecidableEq, Repr

/-- The fields of a `CreateTaskRequest` that fail their `binding` tag, each with
the tag that fails: `Title` is `required,max=255`, `Description` is `max=1000`,
`DateString` is `required`. -/
def CreateTaskRequest.failedTags (req : CreateTaskRequest) : List (String × String) :=
  (if req.Title.length = 0 then [("Title", "required")]
    else if 255 < req.Title.length then [("Title", "max")]
    else [])
  ++ (if 1000 < req.Description.length then [("Description", "max")] else [])
  ++ (if req.DateString.length = 0 then [("DateString", "required")] else [])

/-- The fields of an `UpdateTaskRequest` that fail their `binding` tag: `Title`
is `omitempty,min=3,max=255`, `Description` is `omitempty,max=1000`,
`DateString` is `omitempty`, `Completed` has no tag. -/
def UpdateTaskRequest.failedTags (req : UpdateTaskRequest) : List (String × String) :=
  (match req.Title with
    | none => []
    | some title =>
      if title.length < 3 then [("Title", "min")]
      else if 255 < title.length then [("Title", "max")]
      else [])
  ++ (match req.Description with
    | none => []
    | some description =>
      if 1000 < description.length then [("Description", "max")] else [])

end dto

namespace validator

/-- Method `Error()` of one field error of struct `structName`. -/
def fieldError (structName : String) (failed : String × String) : String :=
  "Key: '" ++ structName ++ "." ++ failed.1 ++ "' Error:Field validation for '"
    ++ failed.1 ++ "' failed on the '" ++ failed.2 ++ "' tag"

/-- The `ValidationErrors` value for the failed fields of a struct, `nil` when
there is none; its message is the field errors, one per line. -/
def validationErrors (structName : String) (failed : List (String × String)) :
    Option GoError :=
  if failed.isEmpty then none
  else some (errors.New (String.intercalate "\n" (failed.map (fieldError structName))))

end validator

namespace gin

/-- Call `ctx.ShouldBindJSON(&req)`: the decoding error if the body does not
decode, else the validation error if a tag fails, else the decoded struct. -/
def ShouldBindJSON {α : Type} (decoded : Except GoError α) (structName : String)
    (failedTags : α → List (String × String)) : Except GoError α :=
  match decoded with
  | .error err => .error err
  | .ok req =>
    match validator.validationErrors structName (failedTags req) with
    | some err => .error err
    | none => .ok req

end gin

namespace http

/-- Constant `http.StatusCreated`. -/
def StatusCreated : Nat := 201

end http

namespace Server

variable {ω : Type}

/-- Call `c.service.CreateTask(ctx, req)`. -/
def CreateTask (service : TaskService ω) (req : dto.CreateTaskServiceRequest)
    (c : Server ω) : (Option models.Task × Option GoError) × Server ω :=
  let r := service.CreateTask req c.service
  (r.1, { service := r.2, calls := c.calls ++ [.CreateTask req] })

/-- Call `c.service.UpdateTask(ctx, id, req)`. -/
def UpdateTask (service : TaskService ω) (id : Nat) (req : dto.UpdateTaskServiceRequest)
    (c : Server ω) : (Option models.Task × Option GoError) × Server ω :=
  let r := service.UpdateTask id req c.service
  (r.1, { service := r.2, calls := c.calls ++ [.UpdateTask id req] })

/-- Call `c.service.DeleteTask(ctx, id)`. -/
def DeleteTask (service : TaskService ω) (id : Nat) (c : Server ω) :
    Option GoError × Server ω :=
  let r := service.DeleteTask id c.service
  (r.1, { service := r.2, calls := c.calls ++ [.DeleteTask id] })

end Server

namespace controllers

namespace TaskController

variable {ω : Type}

/-- Handler `TaskController.CreateTask`; `decoded` is the JSON body decoded into a
`dto.CreateTaskRequest`, or the decoding error. -/
def CreateTask (service : TaskService ω) (decoded : Except GoError dto.CreateTaskRequest)
    (c : Server ω) : gin.Result × Server ω :=
  match gin.ShouldBindJSON decoded "CreateTaskRequest" dto.CreateTaskRequest.failedTags with
  | .error err => (.JSON http.StatusBadRequest (dto.ErrorResponse err.Error), c)
  | .ok req =>
    match time.Parse req.DateString with
    | none =>
      (.JSON http.StatusBadRequest
        (dto.ErrorResponse "Invalid date format, expected YYYY-MM-DD"), c)
    | some parsedDate =>
      let serviceReq : dto.CreateTaskServiceRequest :=
        { Title := req.Title, Description := req.Description, Date := parsedDate }
      let r := Server.CreateTask service serviceReq c
      match r.1.2 with
      | some err => (.JSON http.StatusInternalServerError (dto.ErrorResponse err.Error), r.2)
      | none =>
        match r.1.1 with
        | none => (.nilDereference, r.2)
        | some task =>
          (.JSON http.StatusCreated
            (dto.SuccessResponse "Task created successfully" (some (.task task))), r.2)

/-- The `serviceReq` that `UpdateTask` builds from the bound body: title,
description and completed are copied, and a supplied date string is parsed;
`none` when the date string does not parse, where the handler returns. -/
def serviceRequestOf (req : dto.UpdateTaskRequest) : Option dto.UpdateTaskServiceRequest :=
  let serviceReq : dto.UpdateTaskServiceRequest :=
    { Title := req.Title, Description := req.Description, Date := none,
      Completed := req.Completed }
  match req.DateString with
  | some dateString =>
    match time.Parse dateString with
    | none => none
    | some parsedDate => some { serviceReq with Date := some parsedDate }
  | none => some serviceReq

/-- Handler `TaskController.UpdateTask`; `idParam` is `ctx.Param("id")` and
`decoded` is the JSON body decoded into a `dto.UpdateTaskRequest`, or the
decoding error. -/
def UpdateTask (service : TaskService ω) (idParam : String)
    (decoded : Except GoError dto.UpdateTaskRequest) (c : Server ω) :
    gin.Result × Server ω :=
  match strconv.ParseUint idParam 10 32 with
  | none => (.JSON http.StatusBadRequest (dto.ErrorResponse "Invalid task ID format"), c)
  | some id =>
    match gin.ShouldBindJSON decoded "UpdateTaskRequest" dto.UpdateTaskRequest.failedTags with
    | .error err => (.JSON http.StatusBadRequest (dto.ErrorResponse err.Error), c)
    | .ok req =>
      match serviceRequestOf req with
      | none =>
        (.JSON http.StatusBadRequest
          (dto.ErrorResponse "Invalid date format, expected YYYY-MM-DD"), c)
      | some serviceReq =>
        let r := Server.UpdateTask service id serviceReq c
        match r.1.2 with
        | some err =>
          if err.Error = "no fields to update" then
            (.JSON http.StatusBadRequest (dto.ErrorResponse "No fields to update"), r.2)
          else
            (.JSON http.StatusInternalServerError (dto.ErrorResponse err.Error), r.2)
        | none =>
          match r.1.1 with
          | none => (.nilDereference, r.2)
          | some task =>
            (.JSON http.StatusOK
              (dto.SuccessResponse "Task updated successfully" (some (.task task))), r.2)

/-- Handler `TaskController.DeleteTask`; `idParam` is `ctx.Param("id")`. -/
def DeleteTask (service : TaskService ω) (idParam : String) (c : Server ω) :
    gin.Result × Server ω :=
  match strconv.ParseUint idParam 10 32 with
  | none => (.JSON http.StatusBadRequest (dto.ErrorResponse "Invalid task ID format"), c)
  | some id =>
    let r := Server.DeleteTask service id c
    match r.1 with
    | some err => (.JSON http.StatusInternalServerError (dto.ErrorResponse err.Error), r.2)
    | none => (.Status http.StatusOK, r.2)

end TaskController

end controllers

/-! ## `internal/transport`: the routes, and runs of requests -/

namespace transport

/-- A request to one of the five task routes of `SetupRouter`, as far as the
handler reads it: the decoded body, the `:id` path parameter, the bound query. -/
inductive Request where
  | create (decoded : Except GoError dto.CreateTaskRequest)
  | get (idParam : String)
  | update (idParam : String) (decoded : Except GoError dto.UpdateTaskRequest)
  | delete (idParam : String)
  | list (bound : Except GoError dto.TaskFilterRequest)

/-- The dispatch of `SetupRouter`: `POST create`, `GET /get/:id`,
`PUT /update/:id`, `DELETE /delete/:id`, `GET list`. -/
def route {ω : Type} (service : TaskService ω) (request : Request) (c : Server ω) :
    gin.Result × Server ω :=
  match request with
  | .create decoded => controllers.TaskController.CreateTask service decoded c
  | .get idParam => controllers.TaskController.GetTaskByID service idParam c
  | .update idParam decoded => controllers.TaskController.UpdateTask service idParam decoded c
  | .delete idParam => controllers.TaskController.DeleteTask service idParam c
  | .list bound => controllers.TaskController.ListTasks service bound c

/-- The server of `cmd/main.go` on one request arriving at time `now`: the
router over the controller over `TaskServiceImpl` over the table. -/
def handle (now : Time) (request : Request) (c : Server (World gorm.DB)) :
    gin.Result × Server (World gorm.DB) :=
  route (services.NewTaskServiceImpl (repositories.NewTaskRepositoryImpl now) now) request c

/-- The server after a run of requests, each with its arrival time. -/
def serve (requests : List (Time × Request)) (c : Server (World gorm.DB)) :
    Server (World gorm.DB) :=
  requests.foldl (fun c e => (handle e.1 e.2 c).2) c

end transport

namespace services

/-- One call of a method of `TaskServiceImpl` over the table, made at time
`e.1`: the world it leaves. -/
def step (e : Time × Call) (w : World gorm.DB) : World gorm.DB :=
  match e.2 with
  | .CreateTask req =>
    (TaskServiceImpl.CreateTask (repositories.NewTaskRepositoryImpl e.1) e.1 req w).2
  | .GetTaskByID id =>
    (TaskServiceImpl.GetTaskByID (repositories.NewTaskRepositoryImpl e.1) id w).2
  | .UpdateTask id req =>
    (TaskServiceImpl.UpdateTask (repositories.NewTaskRepositoryImpl e.1) id req w).2
  | .DeleteTask id =>
    (TaskServiceImpl.DeleteTask (repositories.NewTaskRepositoryImpl e.1) id w).2
  | .ListTasks filter =>
    (TaskServiceImpl.ListTasks (repositories.NewTaskRepositoryImpl e.1) filter w).2

/-- The world after a run of service calls, each with its time. -/
def run (calls : List (Time × Call)) (w : World gorm.DB) : World gorm.DB :=
  calls.foldl (fun w e => step e w) w

end services

/-! ## The list filter in the words of the specification -/

namespace Spec

/-- The tasks a list request selects, as the specification words it: the task
is not deleted, its completed flag equals the filter's when one is given, and
its date lies within each given inclusive bound. -/
def selects (filter : dto.TaskFilter) (t : models.Task) : Bool :=
  t.Model.DeletedAt.isNone
    && (match filter.Completed with
        | some completed => t.Completed == completed
        | none => true)
    && (match filter.DateFrom with
        | some dateFrom => decide (dateFrom ≤ t.Date)
        | none => true)
    && (match filter.DateTo with
        | some dateTo => decide (t.Date ≤ dateTo)
        | none => true)

/-- A base-10 unsigned integer in the words of the specification: at least one
character, all of them decimal digits. -/
def isDecimal (s : String) : Bool :=
  !s.toList.isEmpty && s.toList.all (fun c => decide (48 ≤ c.toNat) && decide (c.toNat ≤ 57))

/-- The number a string of decimal digits denotes. -/
def decimalValue (s : String) : Nat :=
  s.toList.foldl (fun n c => n * 10 + (c.toNat - 48)) 0

/-- The number of the UTC calendar day an instant falls in, counted from the
zero time. -/
def utcDay (t : Time) : Int := t / (24 * time.Hour)

/-- The number of the calendar day an instant falls in on a clock that is
`offset` nanoseconds ahead of UTC, as a server's local time zone is. -/
def localDay (offset : Int) (t : Time) : Int := (t + offset) / (24 * time.Hour)

end Spec

/-! ## Sample data -/

namespace Sample

/-- An instant twelve hours into day 739000 after the zero time. -/
def noon : Time := 739000 * (24 * time.Hour) + 12 * time.Hour

/-- Midnight at the start of the day of `noon`. -/
def today : Time := 739000 * (24 * time.Hour)

/-- An open task dated `today`, stored under id 1. -/
def rent : models.Task :=
  { Model := { ID := 1, CreatedAt := 7, UpdatedAt := 7, DeletedAt := none }
    Title := "pay rent", Description := "before the 5th", Date := today, Completed := false }

/-- A task stored under id 2 and deleted since. -/
def milk : models.Task :=
  { Model := { ID := 2, CreatedAt := 8, UpdatedAt := 8, DeletedAt := some 9 }
    Title := "buy milk", Description := "", Date := today + 24 * time.Hour, Completed := true }

/-- A table holding `rent` and the deleted `milk`. -/
def db : gorm.DB := { tasks := [rent, milk], seq := 3 }

/-- The table-backed repository and an empty call log. -/
def world : World gorm.DB := { store := db, calls := [] }

/-- A server over `world` that has handled no request yet. -/
def server : Server (World gorm.DB) := { service := world, calls := [] }

/-- The service over the table, with clock reading `noon`. -/
def service : TaskService (World gorm.DB) :=
  services.NewTaskServiceImpl (repositories.NewTaskRepositoryImpl noon) noon

/-- A table with no row yet. -/
def fresh : World gorm.DB := { store := { tasks := [], seq := 1 }, calls := [] }

/-- A table whose sequence is behind its rows: the next id, 1, is taken. -/
def stale : World gorm.DB := { store := { tasks := [rent], seq := 1 }, calls := [] }

/-- A repository without storage whose `Create` reports no error and writes
another title through the pointer it is handed. -/
def overwriting : TaskRepository Unit where
  Create := fun task s => (({ task with Title := "overwritten" }, none), s)
  GetByID := fun _ s => ((none, some gorm.ErrRecordNotFound), s)
  Update := fun _ _ s => (none, s)
  Delete := fun _ s => (none, s)
  List := fun _ s => (([], none), s)

end Sample

/-! ## Theorems -/

open services repositories controllers

section Service

variable {σ : Type}

/-- C1: a create request dated strictly before the current time truncated to
24 hours gets a nil task and the error "task date cannot be in the past", and
the world is left as it was: no repository call is logged, so `Create` is
never called. -/
theorem CreateTask_rejects_past_date (repo : TaskRepository σ) (now : Time)
    (req : dto.CreateTaskServiceRequest) (w : World σ)
    (hpast : req.Date < time.Truncate now (24 * time.Hour)) :
    TaskServiceImpl.CreateTask repo now req w
        = ((none, some (errors.New "task date cannot be in the past")), w)
      ∧ (errors.New "task date cannot be in the past").Error
        = "task date cannot be in the past"
      ∧ (TaskServiceImpl.CreateTask repo now req w).2.calls = w.calls := by
  have h : TaskServiceImpl.CreateTask repo now req w
      = ((none, some (errors.New "task date cannot be in the past")), w) := by
    simp [TaskServiceImpl.CreateTask, time.Before, hpast]
  exact ⟨h, rfl, by rw [h]⟩

/-- Witness of C1 on the table-backed repository: the instant is 12 hours into
day 739000 and the request is dated one nanosecond before that day starts. -/
theorem CreateTask_rejects_past_date_witness :
    ((739000 * (24 * time.Hour) - 1 : Int)
        < time.Truncate (739000 * (24 * time.Hour) + 12 * time.Hour) (24 * time.Hour))
      ∧ (TaskServiceImpl.CreateTask (NewTaskRepositoryImpl 5)
            (739000 * (24 * time.Hour) + 12 * time.Hour)
            { Title := "pay rent", Description := "", Date := 739000 * (24 * time.Hour) - 1 }
            { store := { tasks := [], seq := 1 }, calls := [] }).2.calls = [] :=
  ⟨by decide,
    (CreateTask_rejects_past_date (NewTaskRepositoryImpl 5)
      (739000 * (24 * time.Hour) + 12 * time.Hour)
      { Title := "pay rent", Description := "", Date := 739000 * (24 * time.Hour) - 1 }
      { store := { tasks := [], seq := 1 }, calls := [] } (by decide)).2.2⟩

/-- C2, as the code has it: for a request dated at or after the current time
truncated to 24 hours (the truncated instant itself included) and a repository
whose `Create` succeeds, `CreateTask` returns no error and the task behind the
pointer it handed to `Create`, as `Create` left it; `Create` is the only call,
and the task handed to it has the request's title, description and date, is
not completed and has a zero `gorm.Model`. On the table-backed repository,
which writes id and timestamps only, the returned task therefore has the
request's title, description and date and is not completed. -/
theorem CreateTask_accepts_today_or_later (repo : TaskRepository σ) (now : Time)
    (req : dto.CreateTaskServiceRequest) (w : World σ)
    (hdate : time.Truncate now (24 * time.Hour) ≤ req.Date)
    (hok : (repo.Create (TaskServiceImpl.newTask req) w.store).1.2 = none) :
    (TaskServiceImpl.CreateTask repo now req w).1
        = (some (repo.Create (TaskServiceImpl.newTask req) w.store).1.1, none)
      ∧ (TaskServiceImpl.CreateTask repo now req w).2.calls
        = w.calls ++ [.Create (TaskServiceImpl.newTask req)]
      ∧ (TaskServiceImpl.CreateTask repo now req w).2.store
        = (repo.Create (TaskServiceImpl.newTask req) w.store).2
      ∧ TaskServiceImpl.newTask req
        = { Model := { ID := 0, CreatedAt := 0, UpdatedAt := 0, DeletedAt := none }
            Title := req.Title, Description := req.Description, Date := req.Date,
            Completed := false }
      ∧ ∀ (clock : Time) (v : World gorm.DB),
          (taskRepository.Create clock (TaskServiceImpl.newTask req) v.store).1.2 = none →
          ∃ task,
            (TaskServiceImpl.CreateTask (NewTaskRepositoryImpl clock) now req v).1
                = (some task, none)
              ∧ task.Title = req.Title ∧ task.Description = req.Description
              ∧ task.Date = req.Date ∧ task.Completed = false := by
  have hrun : ∀ (τ : Type) (r : TaskRepository τ) (u : World τ),
      (r.Create (TaskServiceImpl.newTask req) u.store).1.2 = none →
      (TaskServiceImpl.CreateTask r now req u).1
        = (some (r.Create (TaskServiceImpl.newTask req) u.store).1.1, none) := by
    intro τ r u hr
    simp [TaskServiceImpl.CreateTask, time.Before, not_lt.mpr hdate, World.Create, hr]
  refine ⟨hrun σ repo w hok, ?_, ?_, rfl, ?_⟩
  · simp only [TaskServiceImpl.CreateTask, time.Before, not_lt.mpr hdate, World.Create, hok]
    simp
  · simp only [TaskServiceImpl.CreateTask, time.Before, not_lt.mpr hdate, World.Create, hok]
    simp
  · intro clock v hcreate
    have hres := hrun gorm.DB (NewTaskRepositoryImpl clock) v hcreate
    refine ⟨_, hres, ?_⟩
    simp only [NewTaskRepositoryImpl, taskRepository.Create, TaskServiceImpl.newTask,
      if_true] at hcreate ⊢
    by_cases hdup : (v.store.tasks.any fun t => decide (t.Model.ID = v.store.seq)) = true
    · simp [hdup] at hcreate
    · simp only [hdup, Bool.false_eq_true, if_false]
      exact ⟨trivial, trivial, trivial, trivial⟩

/-- Witness of C2 on the table-backed repository, for a request dated exactly
at the start of the current day: the task comes back under id 3 with the
request's values. -/
theorem CreateTask_accepts_today_or_later_witness :
    time.Truncate Sample.noon (24 * time.Hour) ≤ Sample.today
      ∧ (TaskServiceImpl.CreateTask (NewTaskRepositoryImpl 5) Sample.noon
          { Title := "water plants", Description := "", Date := Sample.today }
          Sample.world).1
        = (some ((NewTaskRepositoryImpl 5).Create
            (TaskServiceImpl.newTask
              { Title := "water plants", Description := "", Date := Sample.today })
            Sample.world.store).1.1, none)
      ∧ ((NewTaskRepositoryImpl 5).Create
          (TaskServiceImpl.newTask
            { Title := "water plants", Description := "", Date := Sample.today })
          Sample.world.store).1.1
        = { Model := { ID := 3, CreatedAt := 5, UpdatedAt := 5, DeletedAt := none }
            Title := "water plants", Description := "", Date := Sample.today,
            Completed := false } :=
  ⟨by decide,
    (CreateTask_accepts_today_or_later (NewTaskRepositoryImpl 5) Sample.noon
      { Title := "water plants", Description := "", Date := Sample.today } Sample.world
      (by decide) (by decide)).1,
    by decide⟩

/-- C2 fails as stated: over a repository whose `Create` reports no error and
writes the title "overwritten" through the pointer, a request dated today
with the title "water plants" comes back without error under the title
"overwritten". -/
theorem CreateTask_returns_what_Create_left :
    time.Truncate Sample.noon (24 * time.Hour) ≤ Sample.today
      ∧ (Sample.overwriting.Create
          (TaskServiceImpl.newTask
            { Title := "water plants", Description := "", Date := Sample.today }) ()).1.2
        = none
      ∧ (TaskServiceImpl.CreateTask Sample.overwriting Sample.noon
          { Title := "water plants", Description := "", Date := Sample.today }
          { store := (), calls := [] }).1
        = (some
            { Model := { ID := 0, CreatedAt := 0, UpdatedAt := 0, DeletedAt := none }
              Title := "overwritten", Description := "", Date := Sample.today,
              Completed := false },
           none)
      ∧ "overwritten" ≠ "water plants" := by
  decide

/-- C3: for every id, an update request that supplies none of title,
description, date and completed gets a nil task and the error "no fields to
update", and the world is left as it was: no repository call is logged, so
neither `Update` nor `GetByID` is called. -/
theorem UpdateTask_rejects_empty_request (repo : TaskRepository σ) (id : Nat)
    (req : dto.UpdateTaskServiceRequest) (w : World σ)
    (htitle : req.Title = none) (hdescription : req.Description = none)
    (hdate : req.Date = none) (hcompleted : req.Completed = none) :
    TaskServiceImpl.UpdateTask repo id req w
        = ((none, some (errors.New "no fields to update")), w)
      ∧ (errors.New "no fields to update").Error = "no fields to update"
      ∧ (TaskServiceImpl.UpdateTask repo id req w).2.calls = w.calls := by
  have h : TaskServiceImpl.UpdateTask repo id req w
      = ((none, some (errors.New "no fields to update")), w) := by
    simp [TaskServiceImpl.UpdateTask, TaskServiceImpl.updatesOf, mapLen, htitle,
      hdescription, hdate, hcompleted]
  exact ⟨h, rfl, by rw [h]⟩

/-- Witness of C3: the empty request against the stored task 1. -/
theorem UpdateTask_rejects_empty_request_witness :
    TaskServiceImpl.UpdateTask (NewTaskRepositoryImpl 5) 1
        { Title := none, Description := none, Date := none, Completed := none } Sample.world
      = ((none, some (errors.New "no fields to update")), Sample.world) :=
  (UpdateTask_rejects_empty_request (NewTaskRepositoryImpl 5) 1
    { Title := none, Description := none, Date := none, Completed := none } Sample.world
    rfl rfl rfl rfl).1

/-- The updates map of a request, spelled out: one entry per supplied field, in
the order title, description, date, completed. -/
theorem updatesOf_eq (req : dto.UpdateTaskServiceRequest) :
    TaskServiceImpl.updatesOf req
      = (req.Title.map (fun v => ("title", Value.string v))).toList
        ++ (req.Description.map (fun v => ("description", Value.string v))).toList
        ++ (req.Date.map (fun v => ("date", Value.timePtr v))).toList
        ++ (req.Completed.map (fun v => ("completed", Value.bool v))).toList := by
  rcases req with ⟨_ | title, _ | description, _ | date, _ | completed⟩ <;>
    simp [TaskServiceImpl.updatesOf, mapSet]

/-- The updates map is empty exactly when the request supplies no field. -/
theorem mapLen_updatesOf_eq_zero (req : dto.UpdateTaskServiceRequest) :
    mapLen (TaskServiceImpl.updatesOf req) = 0
      ↔ req.Title = none ∧ req.Description = none ∧ req.Date = none
        ∧ req.Completed = none := by
  rw [updatesOf_eq]
  rcases req with ⟨_ | title, _ | description, _ | date, _ | completed⟩ <;> simp [mapLen]

/-- C4: for an update request with at least one field supplied, `UpdateTask`
calls the repository's `Update` exactly once, first, with the id it was given
and a map in which "title", "description", "date" and "completed" are present
exactly for the supplied fields, each mapped to the supplied value, and which
has no other key and no key twice. -/
theorem UpdateTask_passes_supplied_fields (repo : TaskRepository σ) (id : Nat)
    (req : dto.UpdateTaskServiceRequest) (w : World σ)
    (hsome : req.Title ≠ none ∨ req.Description ≠ none ∨ req.Date ≠ none
      ∨ req.Completed ≠ none) :
    ∃ updates : UpdateMap,
      ((TaskServiceImpl.UpdateTask repo id req w).2.calls = w.calls ++ [.Update id updates]
        ∨ (TaskServiceImpl.UpdateTask repo id req w).2.calls
            = w.calls ++ [.Update id updates, .GetByID id])
      ∧ mapGet updates "title" = req.Title.map Value.string
      ∧ mapGet updates "description" = req.Description.map Value.string
      ∧ mapGet updates "date" = req.Date.map Value.timePtr
      ∧ mapGet updates "completed" = req.Completed.map Value.bool
      ∧ (∀ k, k ∉ ["title", "description", "date", "completed"] → mapGet updates k = none)
      ∧ (updates.map Prod.fst).Nodup := by
  have hlen : ¬ mapLen (TaskServiceImpl.updatesOf req) = 0 := by
    rw [mapLen_updatesOf_eq_zero]
    tauto
  refine ⟨TaskServiceImpl.updatesOf req, ?_, ?_, ?_, ?_, ?_, ?_, ?_⟩
  · simp only [TaskServiceImpl.UpdateTask, beq_iff_eq, hlen, if_false, World.Update]
    cases hu : (repo.Update id (TaskServiceImpl.updatesOf req) w.store).1 with
    | some err => left; simp
    | none => right; simp [World.GetByID]
  · rw [updatesOf_eq]
    rcases req with ⟨_ | title, _ | description, _ | date, _ | completed⟩ <;>
      simp [mapGet, List.find?]
  · rw [updatesOf_eq]
    rcases req with ⟨_ | title, _ | description, _ | date, _ | completed⟩ <;>
      simp [mapGet, List.find?]
  · rw [updatesOf_eq]
    rcases req with ⟨_ | title, _ | description, _ | date, _ | completed⟩ <;>
      simp [mapGet, List.find?]
  · rw [updatesOf_eq]
    rcases req with ⟨_ | title, _ | description, _ | date, _ | completed⟩ <;>
      simp [mapGet, List.find?]
  · intro k hk
    simp only [List.mem_cons, List.mem_singleton, List.not_mem_nil, or_false, not_or] at hk
    obtain ⟨h1, h2, h3, h4⟩ := hk
    have e1 : ("title" == k) = false := by simpa using Ne.symm h1
    have e2 : ("description" == k) = false := by simpa using Ne.symm h2
    have e3 : ("date" == k) = false := by simpa using Ne.symm h3
    have e4 : ("completed" == k) = false := by simpa using Ne.symm h4
    rw [updatesOf_eq]
    rcases req with ⟨_ | title, _ | description, _ | date, _ | completed⟩ <;>
      simp [mapGet, List.find?, e1, e2, e3, e4]
  · rw [updatesOf_eq]
    rcases req with ⟨_ | title, _ | description, _ | date, _ | completed⟩ <;>
      simp

/-- Witness of C4: title and completed supplied, description and date not. -/
theorem UpdateTask_passes_supplied_fields_witness :
    ∃ updates : UpdateMap,
      ((TaskServiceImpl.UpdateTask (NewTaskRepositoryImpl 5) 1
            { Title := some "pay the rent", Description := none, Date := none,
              Completed := some true } Sample.world).2.calls
          = Sample.world.calls ++ [.Update 1 updates]
        ∨ (TaskServiceImpl.UpdateTask (NewTaskRepositoryImpl 5) 1
            { Title := some "pay the rent", Description := none, Date := none,
              Completed := some true } Sample.world).2.calls
          = Sample.world.calls ++ [.Update 1 updates, .GetByID 1])
      ∧ mapGet updates "title" = some (Value.string "pay the rent")
      ∧ mapGet updates "description" = none
      ∧ mapGet updates "date" = none
      ∧ mapGet updates "completed" = some (Value.bool true)
      ∧ (∀ k, k ∉ ["title", "description", "date", "completed"] → mapGet updates k = none)
      ∧ (updates.map Prod.fst).Nodup :=
  UpdateTask_passes_supplied_fields (NewTaskRepositoryImpl 5) 1
    { Title := some "pay the rent", Description := none, Date := none,
      Completed := some true } Sample.world (Or.inl (by decide))

end Service

section Table

/-- The condition of the statements that address one row by its id. -/
theorem idQuery_holds (id : Nat) (t : models.Task) :
    (gorm.softDeleteScope (gorm.Query.Where [] (.idEq id))).holds t
      = (decide (t.Model.ID = id) && t.Model.DeletedAt.isNone) := by
  simp [gorm.softDeleteScope, gorm.Query.Where, gorm.Query.holds, gorm.Cond.holds]

/-- Every updates map the service builds is a valid set of assignments. -/
theorem updatesOf_assignable (req : dto.UpdateTaskServiceRequest) :
    (TaskServiceImpl.updatesOf req).all (fun e => (gorm.assign default e).isSome) = true := by
  rw [updatesOf_eq]
  rcases req with ⟨_ | title, _ | description, _ | date, _ | completed⟩ <;>
    simp [gorm.assign]

/-- The assignments of the service's updates map on a row: each supplied field
takes the supplied value, everything else stays. -/
theorem assignAll_updatesOf (req : dto.UpdateTaskServiceRequest) (t : models.Task) :
    gorm.assignAll (TaskServiceImpl.updatesOf req) t
      = some { Model := t.Model
               Title := req.Title.getD t.Title
               Description := req.Description.getD t.Description
               Date := req.Date.getD t.Date
               Completed := req.Completed.getD t.Completed } := by
  rw [updatesOf_eq]
  rcases req with ⟨_ | title, _ | description, _ | date, _ | completed⟩ <;>
    simp [gorm.assignAll, gorm.assign, List.foldlM]

/-- The row map of `taskRepository.Update` for the service's updates map. -/
theorem Update_updatesOf (now : Time) (id : Nat) (req : dto.UpdateTaskServiceRequest)
    (db : gorm.DB) :
    taskRepository.Update now id (TaskServiceImpl.updatesOf req) db
      = (none,
          { db with
            tasks := db.tasks.map (fun t =>
              if decide (t.Model.ID = id) && t.Model.DeletedAt.isNone then
                { Model := { t.Model with UpdatedAt := now }
                  Title := req.Title.getD t.Title
                  Description := req.Description.getD t.Description
                  Date := req.Date.getD t.Date
                  Completed := req.Completed.getD t.Completed }
              else t) }) := by
  simp only [taskRepository.Update, updatesOf_assignable, if_true, idQuery_holds,
    assignAll_updatesOf]

/-- Reading a row by id from a table whose rows were mapped by a function that
keeps ids and deletion marks. -/
theorem GetByID_map (f : models.Task → models.Task) (id : Nat) (db : gorm.DB)
    (hf : ∀ t, (f t).Model.ID = t.Model.ID ∧ (f t).Model.DeletedAt = t.Model.DeletedAt) :
    (taskRepository.GetByID id { db with tasks := db.tasks.map f }).1
      = (((taskRepository.GetByID id db).1.1).map f, (taskRepository.GetByID id db).1.2) := by
  have hq : ((gorm.softDeleteScope (gorm.Query.Where [] (.idEq id))).holds ∘ f)
      = (gorm.softDeleteScope (gorm.Query.Where [] (.idEq id))).holds := by
    funext t
    simp [idQuery_holds, (hf t).1, (hf t).2]
  simp only [taskRepository.GetByID, List.find?_map, hq]
  cases db.tasks.find? (gorm.softDeleteScope (gorm.Query.Where [] (.idEq id))).holds <;> rfl

/-- C5: on the table-backed repository, for a task that `GetByID` finds (it
exists and is not deleted) and an update request with at least one field,
`UpdateTask` returns without error the re-read task, in which every supplied
field has the supplied value and every unsupplied one of title, description,
date and completed has the value it had before; the rows with another id are
the same as before, and so is what `GetByID` reads for every other id. -/
theorem UpdateTask_changes_exactly_supplied_fields (now : Time) (id : Nat)
    (req : dto.UpdateTaskServiceRequest) (w : World gorm.DB) (old : models.Task)
    (hold : (taskRepository.GetByID id w.store).1 = (some old, none))
    (hsome : req.Title ≠ none ∨ req.Description ≠ none ∨ req.Date ≠ none
      ∨ req.Completed ≠ none) :
    ∃ task,
      (TaskServiceImpl.UpdateTask (NewTaskRepositoryImpl now) id req w).1 = (some task, none)
      ∧ task.Title = req.Title.getD old.Title
      ∧ task.Description = req.Description.getD old.Description
      ∧ task.Date = req.Date.getD old.Date
      ∧ task.Completed = req.Completed.getD old.Completed
      ∧ task.Model.ID = id
      ∧ (TaskServiceImpl.UpdateTask (NewTaskRepositoryImpl now) id req w).2.store.tasks.filter
            (fun t => decide (t.Model.ID ≠ id))
          = w.store.tasks.filter (fun t => decide (t.Model.ID ≠ id))
      ∧ ∀ other, other ≠ id →
          (taskRepository.GetByID other
              (TaskServiceImpl.UpdateTask (NewTaskRepositoryImpl now) id req w).2.store).1
            = (taskRepository.GetByID other w.store).1 := by
  have hlen : ¬ mapLen (TaskServiceImpl.updatesOf req) = 0 := by
    rw [mapLen_updatesOf_eq_zero]
    tauto
  -- the row map of the update keeps ids and deletion marks
  let f : models.Task → models.Task := fun t =>
    if decide (t.Model.ID = id) && t.Model.DeletedAt.isNone then
      { Model := { t.Model with UpdatedAt := now }
        Title := req.Title.getD t.Title
        Description := req.Description.getD t.Description
        Date := req.Date.getD t.Date
        Completed := req.Completed.getD t.Completed }
    else t
  have hf : ∀ t, (f t).Model.ID = t.Model.ID ∧ (f t).Model.DeletedAt = t.Model.DeletedAt := by
    intro t
    simp only [f]
    split <;> simp
  have hfother : ∀ t : models.Task, t.Model.ID ≠ id → f t = t := by
    intro t ht
    simp [f, ht]
  -- the found row satisfies the condition
  have hfind : w.store.tasks.find?
      (gorm.softDeleteScope (gorm.Query.Where [] (.idEq id))).holds = some old := by
    simp only [taskRepository.GetByID] at hold
    cases hc : w.store.tasks.find?
        (gorm.softDeleteScope (gorm.Query.Where [] (.idEq id))).holds with
    | none => simp [hc] at hold
    | some t => simp [hc] at hold; simp [hold]
  have hcond := List.find?_some hfind
  rw [idQuery_holds] at hcond
  have hid : old.Model.ID = id := by
    simp only [Bool.and_eq_true, decide_eq_true_eq] at hcond
    exact hcond.1
  -- the service call, unfolded
  have hrun : TaskServiceImpl.UpdateTask (NewTaskRepositoryImpl now) id req w
      = ((some (f old), none),
          { store := { w.store with tasks := w.store.tasks.map f }
            calls := w.calls ++ [.Update id (TaskServiceImpl.updatesOf req), .GetByID id] }) := by
    have hget := GetByID_map f id w.store hf
    rw [hold] at hget
    have hst : (taskRepository.GetByID id { w.store with tasks := w.store.tasks.map f }).2
        = { w.store with tasks := w.store.tasks.map f } := by
      simp only [taskRepository.GetByID]
      split <;> rfl
    simp only [TaskServiceImpl.UpdateTask, beq_iff_eq, hlen, if_false, World.Update,
      World.GetByID, NewTaskRepositoryImpl, Update_updatesOf]
    refine Prod.ext ?_ ?_
    · exact hget
    · simp only [hst, List.append_assoc, List.singleton_append]
  have hfold : f old
      = { Model := { old.Model with UpdatedAt := now }
          Title := req.Title.getD old.Title
          Description := req.Description.getD old.Description
          Date := req.Date.getD old.Date
          Completed := req.Completed.getD old.Completed } := by
    simp only [f]
    rw [if_pos hcond]
  refine ⟨f old, by rw [hrun], ?_, ?_, ?_, ?_, ?_, ?_, ?_⟩
  · rw [hfold]
  · rw [hfold]
  · rw [hfold]
  · rw [hfold]
  · rw [(hf old).1, hid]
  · rw [hrun]
    show (w.store.tasks.map f).filter (fun t => decide (t.Model.ID ≠ id))
      = w.store.tasks.filter (fun t => decide (t.Model.ID ≠ id))
    induction w.store.tasks with
    | nil => rfl
    | cons a l ih =>
      by_cases ha : a.Model.ID = id
      · have hfa : (f a).Model.ID = id := by rw [(hf a).1, ha]
        rw [List.map_cons, List.filter_cons, List.filter_cons, ih]
        simp [hfa, ha]
      · rw [List.map_cons, hfother a ha, List.filter_cons, List.filter_cons, ih]
  · intro other hother
    rw [hrun]
    have hget := GetByID_map f other w.store hf
    simp only at hget ⊢
    rw [hget]
    refine Prod.ext ?_ rfl
    simp only [taskRepository.GetByID]
    cases hc : w.store.tasks.find?
        (gorm.softDeleteScope (gorm.Query.Where [] (.idEq other))).holds with
    | none => rfl
    | some t =>
      have ht := List.find?_some hc
      rw [idQuery_holds] at ht
      simp only [Bool.and_eq_true, decide_eq_true_eq] at ht
      have : t.Model.ID ≠ id := by rw [ht.1]; exact hother
      simp [hfother t this]

/-- Witness of C5: title and completed of the stored task 1 are updated, its
description and date stay, and the deleted task 2 is left alone. -/
theorem UpdateTask_changes_exactly_supplied_fields_witness :
    (taskRepository.GetByID 1 Sample.world.store).1 = (some Sample.rent, none)
      ∧ ∃ task,
        (TaskServiceImpl.UpdateTask (NewTaskRepositoryImpl 5) 1
            { Title := some "pay the rent", Description := none, Date := none,
              Completed := some true } Sample.world).1 = (some task, none)
        ∧ task.Title = "pay the rent"
        ∧ task.Description = "before the 5th"
        ∧ task.Date = Sample.today
        ∧ task.Completed = true
        ∧ task.Model.ID = 1
        ∧ (TaskServiceImpl.UpdateTask (NewTaskRepositoryImpl 5) 1
            { Title := some "pay the rent", Description := none, Date := none,
              Completed := some true } Sample.world).2.store.tasks.filter
              (fun t => decide (t.Model.ID ≠ 1))
            = Sample.world.store.tasks.filter (fun t => decide (t.Model.ID ≠ 1))
        ∧ ∀ other, other ≠ 1 →
            (taskRepository.GetByID other
                (TaskServiceImpl.UpdateTask (NewTaskRepositoryImpl 5) 1
                  { Title := some "pay the rent", Description := none, Date := none,
                    Completed := some true } Sample.world).2.store).1
              = (taskRepository.GetByID other Sample.world.store).1 :=
  ⟨by decide,
    UpdateTask_changes_exactly_supplied_fields 5 1
      { Title := some "pay the rent", Description := none, Date := none,
        Completed := some true } Sample.world Sample.rent (by decide) (Or.inl (by decide))⟩

end Table

section Filters

variable {σ : Type}

/-- C6: for every filter, `ListTasks` makes exactly one repository call, `List`,
with a filter whose limit is 10 when the supplied limit is at most 0 and the
supplied limit otherwise, whose offset is 0 when the supplied offset is
negative and the supplied offset otherwise, and whose completed flag and date
bounds are the supplied ones. -/
theorem ListTasks_passes_defaulted_filter (repo : TaskRepository σ) (filter : dto.TaskFilter)
    (w : World σ) :
    (TaskServiceImpl.ListTasks repo filter w).2.calls
      = w.calls ++
        [.List
          { Completed := filter.Completed
            DateFrom := filter.DateFrom
            DateTo := filter.DateTo
            Limit := if filter.Limit ≤ 0 then 10 else filter.Limit
            Offset := if filter.Offset < 0 then 0 else filter.Offset }] := by
  simp only [TaskServiceImpl.ListTasks, World.List]
  by_cases hl : filter.Limit ≤ 0 <;> by_cases ho : filter.Offset < 0 <;>
    simp only [hl, ho, if_true, if_false] <;> split <;> rfl

/-- C7: for every query-string filter request, `convertToServiceFilter` sets the
limit to the supplied one when one is supplied and positive and to 10
otherwise, and the offset to the supplied one when one is supplied and not
negative and to 0 otherwise; so the limit is at least 1, the offset at least 0,
and every bound is exceeded by the limit of some request. -/
theorem convertToServiceFilter_pagination (req : dto.TaskFilterRequest) :
    (convertToServiceFilter req).Limit
        = (match req.Limit with
           | some limit => if 0 < limit then limit else 10
           | none => 10)
      ∧ (convertToServiceFilter req).Offset
        = (match req.Offset with
           | some offset => if 0 ≤ offset then offset else 0
           | none => 0)
      ∧ 1 ≤ (convertToServiceFilter req).Limit
      ∧ 0 ≤ (convertToServiceFilter req).Offset
      ∧ ∀ bound : Int, ∃ limit : Int,
          bound < (convertToServiceFilter { req with Limit := some limit }).Limit := by
  have hlimit : ∀ r : dto.TaskFilterRequest, (convertToServiceFilter r).Limit
      = (match r.Limit with
         | some limit => if 0 < limit then limit else 10
         | none => 10) := by
    intro r
    rcases r with ⟨c, df, dt, l, o⟩
    simp only [convertToServiceFilter]
    cases c <;> cases df <;> cases dt <;> cases l <;> cases o <;> simp only [] <;>
      repeat' split
    all_goals rfl
  have hoffset : (convertToServiceFilter req).Offset
      = (match req.Offset with
         | some offset => if 0 ≤ offset then offset else 0
         | none => 0) := by
    rcases req with ⟨c, df, dt, l, o⟩
    simp only [convertToServiceFilter]
    cases c <;> cases df <;> cases dt <;> cases l <;> cases o <;> simp only [] <;>
      repeat' split
    all_goals rfl
  refine ⟨hlimit req, hoffset, ?_, ?_, ?_⟩
  · rw [hlimit]
    cases req.Limit with
    | none => decide
    | some l =>
      simp only
      split <;> omega
  · rw [hoffset]
    cases req.Offset with
    | none => decide
    | some o =>
      simp only
      split <;> omega
  · intro bound
    refine ⟨|bound| + 1, ?_⟩
    rw [hlimit]
    have h1 : (0 : Int) < |bound| + 1 := by positivity
    simp only [h1, if_true]
    have := le_abs_self bound
    omega

/-- The condition of `taskRepository.List` is the selection of the
specification. -/
theorem listCondition_eq_selects (filter : dto.TaskFilter) (t : models.Task) :
    taskRepository.listCondition filter t = Spec.selects filter t := by
  rcases filter with ⟨_ | completed, _ | dateFrom, _ | dateTo, limit, offset⟩ <;>
    simp [taskRepository.listCondition, taskRepository.listQuery, gorm.softDeleteScope,
      gorm.Query.Where, gorm.Query.holds, gorm.Cond.holds, Spec.selects, Bool.and_comm,
      Bool.and_assoc, Bool.and_left_comm, and_comm, and_assoc, and_left_comm]

/-- C8: the condition `taskRepository.List` builds holds of a task exactly when
the task is not deleted, the completed filter is absent or equals its flag,
the lower date bound is absent or at most its date, and the upper date bound
is absent or at least its date; on the table model `List` returns, in storage
order and cut by offset and limit, the rows so selected. -/
theorem List_selects_by_independent_filters (filter : dto.TaskFilter) :
    (∀ t : models.Task,
      taskRepository.listCondition filter t = true
        ↔ t.Model.DeletedAt = none
          ∧ (filter.Completed = none ∨ filter.Completed = some t.Completed)
          ∧ (filter.DateFrom = none ∨ ∃ dateFrom, filter.DateFrom = some dateFrom
              ∧ dateFrom ≤ t.Date)
          ∧ (filter.DateTo = none ∨ ∃ dateTo, filter.DateTo = some dateTo
              ∧ t.Date ≤ dateTo))
      ∧ ∀ db : gorm.DB,
          (taskRepository.List filter db).1
            = (gorm.applyLimit filter.Limit
                (gorm.applyOffset filter.Offset (db.tasks.filter (Spec.selects filter))),
               none) := by
  constructor
  · intro t
    rw [listCondition_eq_selects]
    have hflip : ∀ b : Bool, t.Completed = b ↔ b = t.Completed := fun b => eq_comm
    rcases filter with ⟨_ | completed, _ | dateFrom, _ | dateTo, limit, offset⟩ <;>
      simp [Spec.selects, hflip, and_assoc]
  · intro db
    have hfun : taskRepository.listCondition filter = Spec.selects filter :=
      funext (listCondition_eq_selects filter)
    simp only [taskRepository.List, hfun]

end Filters

section Controller

variable {ω σ : Type}

/-- What the list handler does with a query string that binds: it calls the
service once, with the filter of `convertToServiceFilter`, in which a
date_from or date_to that does not parse as YYYY-MM-DD is absent and one that
parses is the parsed date, and it answers with what that call returns, 500
and the error's message or 200 and the returned tasks. It answers 400 only
when binding fails, with the binding error as message and no service call. -/
theorem ListTasks_drops_malformed_dates (service : TaskService ω)
    (req : dto.TaskFilterRequest) (c : Server ω) :
    (convertToServiceFilter req).DateFrom = req.DateFrom.bind time.Parse
      ∧ (convertToServiceFilter req).DateTo = req.DateTo.bind time.Parse
      ∧ (TaskController.ListTasks service (.ok req) c).2.calls
          = c.calls ++ [.ListTasks (convertToServiceFilter req)]
      ∧ (TaskController.ListTasks service (.ok req) c).2.service
          = (service.ListTasks (convertToServiceFilter req) c.service).2
      ∧ (TaskController.ListTasks service (.ok req) c).1
          = (match (service.ListTasks (convertToServiceFilter req) c.service).1.2 with
             | some err => .JSON 500 (dto.ErrorResponse err.Error)
             | none =>
               .JSON 200 (dto.SuccessResponse "Tasks retrieved successfully"
                 (some (.tasks
                   (service.ListTasks (convertToServiceFilter req) c.service).1.1))))
      ∧ ∀ err : GoError, TaskController.ListTasks service (.error err) c
          = (.JSON 400 (dto.ErrorResponse err.Error), c) := by
  refine ⟨?_, ?_, ?_, ?_, ?_, fun err => rfl⟩
  · rcases req with ⟨c, df, dt, l, o⟩
    simp only [convertToServiceFilter]
    cases c <;> cases df <;> cases dt <;> cases l <;> cases o <;> simp only [] <;>
      repeat' split
    all_goals simp_all
  · rcases req with ⟨c, df, dt, l, o⟩
    simp only [convertToServiceFilter]
    cases c <;> cases df <;> cases dt <;> cases l <;> cases o <;> simp only [] <;>
      repeat' split
    all_goals simp_all
  · simp only [TaskController.ListTasks, Server.ListTasks]
    split <;> rfl
  · simp only [TaskController.ListTasks, Server.ListTasks]
    split <;> rfl
  · simp only [TaskController.ListTasks, Server.ListTasks]
    cases (service.ListTasks (convertToServiceFilter req) c.service).1.2 <;> rfl

/-- C9: the code at a list request with `date_from=2024-13-45`, which is no
date: the request is not answered 400 "Invalid filter parameters" but 200 with
the stored task, after one call of the service with a filter that has no
lower date bound. -/
theorem ListTasks_malformed_date_is_not_rejected :
    time.Parse "2024-13-45" = none
      ∧ (TaskController.ListTasks (NewTaskServiceImpl (NewTaskRepositoryImpl 5) Sample.noon)
          (.ok { Completed := none, DateFrom := some "2024-13-45", DateTo := none,
                 Limit := none, Offset := none })
          { service := Sample.world, calls := [] }).1
        = .JSON 200 (dto.SuccessResponse "Tasks retrieved successfully"
            (some (.tasks [Sample.rent])))
      ∧ (TaskController.ListTasks (NewTaskServiceImpl (NewTaskRepositoryImpl 5) Sample.noon)
          (.ok { Completed := none, DateFrom := some "2024-13-45", DateTo := none,
                 Limit := none, Offset := none })
          { service := Sample.world, calls := [] }).1
        ≠ .JSON 400 (dto.ErrorResponse "Invalid filter parameters")
      ∧ (TaskController.ListTasks (NewTaskServiceImpl (NewTaskRepositoryImpl 5) Sample.noon)
          (.ok { Completed := none, DateFrom := some "2024-13-45", DateTo := none,
                 Limit := none, Offset := none })
          { service := Sample.world, calls := [] }).2.calls
        = [.ListTasks { Completed := none, DateFrom := none, DateTo := none,
                        Limit := 10, Offset := 0 }] := by
  decide

/-- C10: for every id, whenever the repository's `GetByID` returns an error `e`,
whatever it is, `TaskServiceImpl.GetTaskByID` returns a nil task and an error
with message "failed to get task: " followed by the message of `e`, and
`TaskController.GetTaskByID` over that service, for every id parameter that
parses to the id, answers 500 with an envelope of status "error", that message
and no data; whenever `GetByID` returns no error, the service returns the
repository's task and no error. -/
theorem GetTaskByID_repository_error_is_500 (repo : TaskRepository σ) (now : Time)
    (id : Nat) (w : World σ) (calls : List services.Call) :
    (∀ e : GoError, (repo.GetByID id w.store).1.2 = some e →
        (TaskServiceImpl.GetTaskByID repo id w).1
            = (none, some (fmt.Errorf_w "failed to get task: " e))
          ∧ (fmt.Errorf_w "failed to get task: " e).Error = "failed to get task: " ++ e.Error
          ∧ ∀ idParam : String, strconv.ParseUint idParam 10 32 = some id →
              (TaskController.GetTaskByID (NewTaskServiceImpl repo now) idParam
                  { service := w, calls := calls }).1
                = .JSON 500
                    { Status := "error", Message := "failed to get task: " ++ e.Error,
                      Data := none })
      ∧ ((repo.GetByID id w.store).1.2 = none →
          (TaskServiceImpl.GetTaskByID repo id w).1 = ((repo.GetByID id w.store).1.1, none)) := by
  constructor
  · intro e he
    have hsvc : (TaskServiceImpl.GetTaskByID repo id w).1
        = (none, some (fmt.Errorf_w "failed to get task: " e)) := by
      simp [TaskServiceImpl.GetTaskByID, World.GetByID, he]
    refine ⟨hsvc, rfl, ?_⟩
    intro idParam hparse
    simp only [TaskController.GetTaskByID, hparse, Server.GetTaskByID, NewTaskServiceImpl,
      hsvc]
    rfl
  · intro hnone
    simp [TaskServiceImpl.GetTaskByID, World.GetByID, hnone]

/-- Witness of C10 on the table-backed repository: the deleted task 2 is not
found, which the handler answers with 500, and the stored task 1 is returned
by the service as the repository read it. -/
theorem GetTaskByID_repository_error_is_500_witness :
    strconv.ParseUint "2" 10 32 = some 2
      ∧ ((NewTaskRepositoryImpl 5).GetByID 2 Sample.world.store).1.2
          = some gorm.ErrRecordNotFound
      ∧ (TaskController.GetTaskByID (NewTaskServiceImpl (NewTaskRepositoryImpl 5) Sample.noon)
            "2" { service := Sample.world, calls := [] }).1
          = .JSON 500
              { Status := "error", Message := "failed to get task: record not found",
                Data := none }
      ∧ (TaskServiceImpl.GetTaskByID (NewTaskRepositoryImpl 5) 1 Sample.world).1
          = (some Sample.rent, none) :=
  ⟨by decide, by decide,
    ((GetTaskByID_repository_error_is_500 (NewTaskRepositoryImpl 5) Sample.noon 2
      Sample.world []).1 gorm.ErrRecordNotFound (by decide)).2.2 "2" (by decide),
    (GetTaskByID_repository_error_is_500 (NewTaskRepositoryImpl 5) Sample.noon 1
      Sample.world []).2 (by decide)⟩

end Controller

section Identifiers

variable {ω : Type}

/-- The digits read so far never shrink the number. -/
theorem le_foldl_digits (cs : List Char) (n : Nat) :
    n ≤ cs.foldl (fun a c => a * 10 + (c.toNat - 48)) n := by
  induction cs generalizing n with
  | nil => exact le_refl n
  | cons c cs ih =>
    simp only [List.foldl_cons]
    exact le_trans (by omega) (ih (n * 10 + (c.toNat - 48)))

/-- The digit loop of `ParseUint` in base 10 with 32 bits: it succeeds exactly
on decimal digits whose number, continued from `n`, stays below `2^32`. -/
theorem parseUintLoop_decimal (cs : List Char) (n m : Nat) (hn : n ≤ 4294967295) :
    strconv.parseUintLoop 10 4294967295 cs n = some m
      ↔ cs.all (fun c => decide (48 ≤ c.toNat) && decide (c.toNat ≤ 57)) = true
        ∧ cs.foldl (fun a c => a * 10 + (c.toNat - 48)) n = m ∧ m < 4294967296 := by
  induction cs generalizing n with
  | nil =>
    simp only [strconv.parseUintLoop, List.all_nil, List.foldl_nil, Option.some.injEq, true_and]
    constructor
    · intro h; exact ⟨h, by omega⟩
    · intro h; exact h.1
  | cons c cs ih =>
    simp only [strconv.parseUintLoop, List.all_cons, List.foldl_cons, Bool.and_eq_true,
      decide_eq_true_eq]
    by_cases hd : 48 ≤ c.toNat ∧ c.toNat ≤ 57
    · have hdig : strconv.digitOf c = some (c.toNat - 48) := by
        simp [strconv.digitOf, hd]
      have hcut : ¬ ((2 ^ 64 - 1) / 10 + 1 ≤ n) := by
        have : (2 ^ 64 - 1) / 10 + 1 = 1844674407370955162 := by norm_num
        omega
      have hbase : ¬ (10 ≤ c.toNat - 48) := by omega
      simp only [hdig, hbase, hcut, if_false]
      by_cases hbig : 4294967295 < n * 10 + (c.toNat - 48)
      · have h64 : (2 ^ 64 ≤ n * 10 + (c.toNat - 48) ∨ 4294967295 < n * 10 + (c.toNat - 48)) :=
          Or.inr hbig
        simp only [h64, if_true]
        constructor
        · intro h; cases h
        · rintro ⟨_, hval, hm⟩
          have := le_foldl_digits cs (n * 10 + (c.toNat - 48))
          omega
      · have h64 : ¬ (2 ^ 64 ≤ n * 10 + (c.toNat - 48)
            ∨ 4294967295 < n * 10 + (c.toNat - 48)) := by
          have : (2 : Nat) ^ 64 = 18446744073709551616 := by norm_num
          omega
        simp only [h64, if_false]
        rw [ih (n * 10 + (c.toNat - 48)) (by omega)]
        simp only [Bool.and_eq_true, decide_eq_true_eq] at *
        tauto
    · have hnone : ∀ m', (match strconv.digitOf c with
          | none => none
          | some d =>
            if 10 ≤ d then none
            else if (2 ^ 64 - 1) / 10 + 1 ≤ n then none
            else if 2 ^ 64 ≤ n * 10 + d ∨ 4294967295 < n * 10 + d then none
            else strconv.parseUintLoop 10 4294967295 cs (n * 10 + d)) ≠ some m' := by
        intro m'
        unfold strconv.digitOf
        rw [if_neg hd]
        split_ifs <;> simp
      constructor
      · intro h; exact absurd h (hnone m)
      · rintro ⟨⟨h1, _⟩, _⟩; exact absurd h1 hd

/-- `strconv.ParseUint(s, 10, 32)` accepts exactly the base-10 unsigned integers
below `2^32` and returns the number they denote. -/
theorem ParseUint_decimal (s : String) (n : Nat) :
    strconv.ParseUint s 10 32 = some n
      ↔ Spec.isDecimal s = true ∧ Spec.decimalValue s = n ∧ n < 2 ^ 32 := by
  have h32 : (2 : Nat) ^ 32 - 1 = 4294967295 := by norm_num
  have h32' : (2 : Nat) ^ 32 = 4294967296 := by norm_num
  unfold strconv.ParseUint Spec.isDecimal Spec.decimalValue
  rw [h32, h32']
  generalize s.toList = cs
  cases cs with
  | nil => simp
  | cons c cs =>
    have hb : ¬ ((10 : Nat) < 2 ∨ 36 < 10) := by omega
    simp only [List.isEmpty_cons, Bool.false_eq_true, if_false, hb, Bool.not_false,
      Bool.true_and]
    exact parseUintLoop_decimal (c :: cs) 0 n (by omega)

/-- C11: for the get, update and delete handlers and every id parameter, with
`ParseUint(idParam, 10, 32)` accepting exactly the non-empty strings of decimal
digits that denote a number below `2^32`: a parameter that is not one is
answered 400 with the message "Invalid task ID format" and no service call;
for one that is, get and delete call the service with the denoted number as
id, and so does update once its body binds and its date string parses. -/
theorem handlers_validate_id_parameter (service : TaskService ω) (idParam : String)
    (decoded : Except GoError dto.UpdateTaskRequest) (c : Server ω) :
    (∀ n, strconv.ParseUint idParam 10 32 = some n
        ↔ Spec.isDecimal idParam = true ∧ Spec.decimalValue idParam = n ∧ n < 2 ^ 32)
      ∧ (¬ (Spec.isDecimal idParam = true ∧ Spec.decimalValue idParam < 2 ^ 32) →
          TaskController.GetTaskByID service idParam c
              = (.JSON 400 (dto.ErrorResponse "Invalid task ID format"), c)
            ∧ TaskController.UpdateTask service idParam decoded c
              = (.JSON 400 (dto.ErrorResponse "Invalid task ID format"), c)
            ∧ TaskController.DeleteTask service idParam c
              = (.JSON 400 (dto.ErrorResponse "Invalid task ID format"), c))
      ∧ (Spec.isDecimal idParam = true ∧ Spec.decimalValue idParam < 2 ^ 32 →
          (TaskController.GetTaskByID service idParam c).2.calls
              = c.calls ++ [.GetTaskByID (Spec.decimalValue idParam)]
            ∧ (TaskController.DeleteTask service idParam c).2.calls
              = c.calls ++ [.DeleteTask (Spec.decimalValue idParam)]
            ∧ ∀ req serviceReq,
                gin.ShouldBindJSON decoded "UpdateTaskRequest"
                    dto.UpdateTaskRequest.failedTags = .ok req →
                TaskController.serviceRequestOf req = some serviceReq →
                (TaskController.UpdateTask service idParam decoded c).2.calls
                  = c.calls ++ [.UpdateTask (Spec.decimalValue idParam) serviceReq]) := by
  refine ⟨ParseUint_decimal idParam, ?_, ?_⟩
  · intro hbad
    have hnone : strconv.ParseUint idParam 10 32 = none := by
      cases hp : strconv.ParseUint idParam 10 32 with
      | none => rfl
      | some n =>
        have := (ParseUint_decimal idParam n).mp hp
        exact absurd ⟨this.1, by rw [this.2.1]; exact this.2.2⟩ hbad
    simp only [TaskController.GetTaskByID, TaskController.UpdateTask,
      TaskController.DeleteTask, hnone]
    exact ⟨rfl, rfl, rfl⟩
  · intro hgood
    have hsome : strconv.ParseUint idParam 10 32 = some (Spec.decimalValue idParam) :=
      (ParseUint_decimal idParam _).mpr ⟨hgood.1, rfl, hgood.2⟩
    refine ⟨?_, ?_, ?_⟩
    · simp only [TaskController.GetTaskByID, hsome, Server.GetTaskByID]
      split
      · rfl
      · split <;> rfl
    · simp only [TaskController.DeleteTask, hsome, Server.DeleteTask]
      split <;> rfl
    · intro req serviceReq hbind hreq
      simp only [TaskController.UpdateTask, hsome, hbind, hreq, Server.UpdateTask]
      split
      · split <;> rfl
      · split <;> rfl

/-- Witness of C11: "abc", "-1", the empty string and "4294967296" are answered
400 by the delete handler without a service call, and "0" reaches the service
as id 0. -/
theorem handlers_validate_id_parameter_witness :
    TaskController.DeleteTask Sample.service "abc" Sample.server
        = (.JSON 400 (dto.ErrorResponse "Invalid task ID format"), Sample.server)
      ∧ TaskController.DeleteTask Sample.service "-1" Sample.server
        = (.JSON 400 (dto.ErrorResponse "Invalid task ID format"), Sample.server)
      ∧ TaskController.DeleteTask Sample.service "" Sample.server
        = (.JSON 400 (dto.ErrorResponse "Invalid task ID format"), Sample.server)
      ∧ TaskController.DeleteTask Sample.service "4294967296" Sample.server
        = (.JSON 400 (dto.ErrorResponse "Invalid task ID format"), Sample.server)
      ∧ (TaskController.DeleteTask Sample.service "0" Sample.server).2.calls
        = Sample.server.calls ++ [.DeleteTask (Spec.decimalValue "0")]
      ∧ Spec.decimalValue "0" = 0 :=
  ⟨((handlers_validate_id_parameter Sample.service "abc" (.error (errors.New "EOF"))
      Sample.server).2.1 (by decide)).2.2,
    ((handlers_validate_id_parameter Sample.service "-1" (.error (errors.New "EOF"))
      Sample.server).2.1 (by decide)).2.2,
    ((handlers_validate_id_parameter Sample.service "" (.error (errors.New "EOF"))
      Sample.server).2.1 (by decide)).2.2,
    ((handlers_validate_id_parameter Sample.service "4294967296" (.error (errors.New "EOF"))
      Sample.server).2.1 (by decide)).2.2,
    ((handlers_validate_id_parameter Sample.service "0" (.error (errors.New "EOF"))
      Sample.server).2.2 (by decide)).2.1,
    by decide⟩

end Identifiers

section Handlers

variable {ω σ : Type}

/-- A body with no field binds: every tag of `UpdateTaskRequest` is `omitempty`. -/
theorem ShouldBindJSON_empty_update :
    gin.ShouldBindJSON
        (.ok { Title := none, Description := none, DateString := none, Completed := none })
        "UpdateTaskRequest" dto.UpdateTaskRequest.failedTags
      = (.ok { Title := none, Description := none, DateString := none, Completed := none } :
          Except GoError dto.UpdateTaskRequest) := by
  rfl

/-- C12: for an id parameter that parses, the update handler over
`TaskServiceImpl.UpdateTask` answers a body that supplies none of title,
description, date and completed with 400 and the message "No fields to
update", after one service call that touches no repository; and over any
service, a service error is answered 400 with that message when its message is
"no fields to update" and 500 with the error's own message otherwise. -/
theorem UpdateTask_no_fields_is_400 (repo : TaskRepository σ) (now : Time)
    (service : TaskService ω) (idParam : String) (id : Nat)
    (hparse : strconv.ParseUint idParam 10 32 = some id) :
    (∀ c : Server (World σ),
        TaskController.UpdateTask (NewTaskServiceImpl repo now) idParam
            (.ok { Title := none, Description := none, DateString := none, Completed := none })
            c
          = (.JSON 400 (dto.ErrorResponse "No fields to update"),
              { service := c.service
                calls := c.calls ++
                  [.UpdateTask id
                    { Title := none, Description := none, Date := none, Completed := none }] }))
      ∧ (∀ (decoded : Except GoError dto.UpdateTaskRequest) (req : dto.UpdateTaskRequest)
          (serviceReq : dto.UpdateTaskServiceRequest) (c : Server ω) (e : GoError),
          gin.ShouldBindJSON decoded "UpdateTaskRequest" dto.UpdateTaskRequest.failedTags
            = .ok req →
          TaskController.serviceRequestOf req = some serviceReq →
          (service.UpdateTask id serviceReq c.service).1.2 = some e →
          (TaskController.UpdateTask service idParam decoded c).1
            = if e.Error = "no fields to update" then
                .JSON 400 (dto.ErrorResponse "No fields to update")
              else .JSON 500 (dto.ErrorResponse e.Error)) := by
  constructor
  · intro c
    have hsvc : TaskServiceImpl.UpdateTask repo id
        { Title := none, Description := none, Date := none, Completed := none } c.service
        = ((none, some (errors.New "no fields to update")), c.service) := by
      simp [TaskServiceImpl.UpdateTask, TaskServiceImpl.updatesOf, mapLen]
    simp only [TaskController.UpdateTask, hparse, ShouldBindJSON_empty_update,
      TaskController.serviceRequestOf, Server.UpdateTask, NewTaskServiceImpl, hsvc]
    rfl
  · intro decoded req serviceReq c e hbind hreq herr
    simp only [TaskController.UpdateTask, hparse, hbind, hreq, Server.UpdateTask, herr]
    split <;> rfl

/-- Witness of C12: the empty body for task 1 is answered 400, and a title for
the deleted task 2, which the re-read does not find, is answered 500 with the
repository's message. -/
theorem UpdateTask_no_fields_is_400_witness :
    strconv.ParseUint "1" 10 32 = some 1
      ∧ (TaskController.UpdateTask Sample.service "1"
            (.ok { Title := none, Description := none, DateString := none, Completed := none })
            Sample.server).1
          = .JSON 400 (dto.ErrorResponse "No fields to update")
      ∧ (TaskController.UpdateTask Sample.service "2"
            (.ok { Title := some "buy oat milk", Description := none, DateString := none,
                   Completed := none })
            Sample.server).1
          = .JSON 500 (dto.ErrorResponse "record not found") :=
  ⟨by decide,
    congrArg Prod.fst
      ((UpdateTask_no_fields_is_400 (NewTaskRepositoryImpl Sample.noon) Sample.noon
        Sample.service "1" 1 (by decide)).1 Sample.server),
    (UpdateTask_no_fields_is_400 (NewTaskRepositoryImpl Sample.noon) Sample.noon
        Sample.service "2" 2 (by decide)).2
      (.ok { Title := some "buy oat milk", Description := none, DateString := none,
             Completed := none })
      { Title := some "buy oat milk", Description := none, DateString := none,
        Completed := none }
      { Title := some "buy oat milk", Description := none, Date := none, Completed := none }
      Sample.server gorm.ErrRecordNotFound (by rfl) (by decide) (by decide)⟩

/-- A parsed date is the midnight of a calendar date. -/
theorem Parse_eq_Date (value : String) (t : Time) (h : time.Parse value = some t) :
    ∃ (year : Int) (month day : Nat), t = time.Date year month day := by
  unfold time.Parse at h
  repeat' split at h
  all_goals first
    | exact Option.noConfusion h
    | exact ⟨_, _, _, (Option.some.inj h).symm⟩
    | (simp only [] at h
       split at h
       · exact Option.noConfusion h
       · exact ⟨_, _, _, (Option.some.inj h).symm⟩)

/-- A parsed date has no time of day: it is a whole number of days after the
zero time. -/
theorem Parse_midnight (value : String) (t : Time) (h : time.Parse value = some t) :
    t % (24 * time.Hour) = 0 ∧ time.Truncate t (24 * time.Hour) = t := by
  obtain ⟨year, month, day, rfl⟩ := Parse_eq_Date value t h
  have hmod : time.Date year month day % (24 * time.Hour) = 0 := by
    unfold time.Date
    exact Int.mul_emod_left _ _
  refine ⟨hmod, ?_⟩
  unfold time.Truncate
  rw [hmod]
  split <;> simp

/-- C13: for a create body that binds, and for an update body that binds with a
date string, under an id parameter that parses: a date string that does not
parse under the layout 2006-01-02 is answered 400 with the message "Invalid
date format, expected YYYY-MM-DD" and no service call; one that parses reaches
the service as the parsed date, the other fields as bound, and that date is a
midnight, a whole number of days after the zero time. -/
theorem handlers_parse_date_string (service : TaskService ω) (c : Server ω)
    (createBody : Except GoError dto.CreateTaskRequest) (createReq : dto.CreateTaskRequest)
    (idParam : String) (id : Nat)
    (updateBody : Except GoError dto.UpdateTaskRequest) (updateReq : dto.UpdateTaskRequest)
    (dateString : String)
    (hcreate : gin.ShouldBindJSON createBody "CreateTaskRequest"
      dto.CreateTaskRequest.failedTags = .ok createReq)
    (hparse : strconv.ParseUint idParam 10 32 = some id)
    (hupdate : gin.ShouldBindJSON updateBody "UpdateTaskRequest"
      dto.UpdateTaskRequest.failedTags = .ok updateReq)
    (hdate : updateReq.DateString = some dateString) :
    (time.Parse createReq.DateString = none →
        TaskController.CreateTask service createBody c
          = (.JSON 400 (dto.ErrorResponse "Invalid date format, expected YYYY-MM-DD"), c))
      ∧ (∀ date, time.Parse createReq.DateString = some date →
          (TaskController.CreateTask service createBody c).2.calls
              = c.calls ++
                [.CreateTask
                  { Title := createReq.Title, Description := createReq.Description,
                    Date := date }]
            ∧ date % (24 * time.Hour) = 0)
      ∧ (time.Parse dateString = none →
          TaskController.UpdateTask service idParam updateBody c
            = (.JSON 400 (dto.ErrorResponse "Invalid date format, expected YYYY-MM-DD"), c))
      ∧ (∀ date, time.Parse dateString = some date →
          (TaskController.UpdateTask service idParam updateBody c).2.calls
              = c.calls ++
                [.UpdateTask id
                  { Title := updateReq.Title, Description := updateReq.Description,
                    Date := some date, Completed := updateReq.Completed }]
            ∧ date % (24 * time.Hour) = 0) := by
  refine ⟨?_, ?_, ?_, ?_⟩
  · intro hbad
    simp only [TaskController.CreateTask, hcreate, hbad]
    rfl
  · intro date hgood
    refine ⟨?_, (Parse_midnight _ _ hgood).1⟩
    simp only [TaskController.CreateTask, hcreate, hgood, Server.CreateTask]
    split
    · rfl
    · split <;> rfl
  · intro hbad
    simp only [TaskController.UpdateTask, hparse, hupdate, TaskController.serviceRequestOf,
      hdate, hbad]
    rfl
  · intro date hgood
    refine ⟨?_, (Parse_midnight _ _ hgood).1⟩
    simp only [TaskController.UpdateTask, hparse, hupdate, TaskController.serviceRequestOf,
      hdate, hgood, Server.UpdateTask]
    split
    · split <;> rfl
    · split <;> rfl

/-- Witness of C13: February 30 is answered 400 by the create handler, and an
update of task 1 to February 29 of 2024 reaches the service as that midnight. -/
theorem handlers_parse_date_string_witness :
    TaskController.CreateTask Sample.service
        (.ok { Title := "pay rent", Description := "", DateString := "2024-02-30" })
        Sample.server
      = (.JSON 400 (dto.ErrorResponse "Invalid date format, expected YYYY-MM-DD"),
          Sample.server)
      ∧ (TaskController.UpdateTask Sample.service "1"
          (.ok { Title := none, Description := none, DateString := some "2024-02-29",
                 Completed := none })
          Sample.server).2.calls
        = Sample.server.calls ++
          [.UpdateTask 1
            { Title := none, Description := none, Date := some (time.Date 2024 2 29),
              Completed := none }] :=
  ⟨(handlers_parse_date_string Sample.service Sample.server
      (.ok { Title := "pay rent", Description := "", DateString := "2024-02-30" })
      { Title := "pay rent", Description := "", DateString := "2024-02-30" }
      "1" 1
      (.ok { Title := none, Description := none, DateString := some "2024-02-29",
             Completed := none })
      { Title := none, Description := none, DateString := some "2024-02-29",
        Completed := none }
      "2024-02-29" (by rfl) (by decide) (by rfl) (by rfl)).1 (by decide),
    ((handlers_parse_date_string Sample.service Sample.server
      (.ok { Title := "pay rent", Description := "", DateString := "2024-02-30" })
      { Title := "pay rent", Description := "", DateString := "2024-02-30" }
      "1" 1
      (.ok { Title := none, Description := none, DateString := some "2024-02-29",
             Completed := none })
      { Title := none, Description := none, DateString := some "2024-02-29",
        Completed := none }
      "2024-02-29" (by rfl) (by decide) (by rfl) (by rfl)).2.2.2
        (time.Date 2024 2 29) (by decide)).1⟩

end Handlers

section Runs

/-- `CreateTask` over the table either stores nothing and returns no task, or
appends one row, which it returns: the request's title, description and date,
not completed, not deleted, under the next id of the sequence, which no row
had before. -/
theorem CreateTask_table (clock now : Time) (req : dto.CreateTaskServiceRequest)
    (w : World gorm.DB) :
    ((TaskServiceImpl.CreateTask (NewTaskRepositoryImpl clock) now req w).2.store = w.store
        ∧ (TaskServiceImpl.CreateTask (NewTaskRepositoryImpl clock) now req w).1.1 = none)
      ∨ ∃ row : models.Task,
          (TaskServiceImpl.CreateTask (NewTaskRepositoryImpl clock) now req w).1
              = (some row, none)
            ∧ (TaskServiceImpl.CreateTask (NewTaskRepositoryImpl clock) now req w).2.store
              = { tasks := w.store.tasks ++ [row], seq := w.store.seq + 1 }
            ∧ row.Title = req.Title ∧ row.Description = req.Description
            ∧ row.Date = req.Date ∧ row.Completed = false
            ∧ row.Model.DeletedAt = none ∧ row.Model.ID = w.store.seq
            ∧ ∀ t ∈ w.store.tasks, t.Model.ID ≠ row.Model.ID := by
  unfold TaskServiceImpl.CreateTask
  by_cases hpast : time.Before req.Date (time.Truncate now (24 * time.Hour)) = true
  · left
    simp [hpast]
  · simp only [hpast, Bool.false_eq_true, if_false, World.Create, NewTaskRepositoryImpl,
      taskRepository.Create, TaskServiceImpl.newTask, if_true]
    by_cases hdup : (w.store.tasks.any fun t => decide (t.Model.ID = w.store.seq)) = true
    · left
      simp [hdup]
    · right
      simp only [hdup, Bool.false_eq_true, if_false]
      refine ⟨_, rfl, rfl, rfl, rfl, rfl, rfl, rfl, rfl, ?_⟩
      intro t ht heq
      apply hdup
      rw [List.any_eq_true]
      exact ⟨t, ht, by simpa using heq⟩

/-- `UpdateTask` over the table maps the rows by a function that keeps ids and
deletion marks, and gives a row no other title than its old one or the
supplied one. -/
theorem UpdateTask_table (clock : Time) (id : Nat) (req : dto.UpdateTaskServiceRequest)
    (w : World gorm.DB) :
    ∃ f : models.Task → models.Task,
      (TaskServiceImpl.UpdateTask (NewTaskRepositoryImpl clock) id req w).2.store
          = { w.store with tasks := w.store.tasks.map f }
        ∧ ∀ t, (f t).Model.ID = t.Model.ID ∧ (f t).Model.DeletedAt = t.Model.DeletedAt
          ∧ ((f t).Title = t.Title ∨ req.Title = some (f t).Title) := by
  unfold TaskServiceImpl.UpdateTask
  by_cases hlen : mapLen (TaskServiceImpl.updatesOf req) = 0
  · refine ⟨fun t => t, ?_, fun t => ⟨rfl, rfl, Or.inl rfl⟩⟩
    simp [hlen]
  · refine ⟨fun t =>
        if decide (t.Model.ID = id) && t.Model.DeletedAt.isNone then
          { Model := { t.Model with UpdatedAt := clock }
            Title := req.Title.getD t.Title
            Description := req.Description.getD t.Description
            Date := req.Date.getD t.Date
            Completed := req.Completed.getD t.Completed }
        else t, ?_, ?_⟩
    · simp only [beq_iff_eq, hlen, if_false, World.Update, World.GetByID,
        NewTaskRepositoryImpl, Update_updatesOf]
      simp only [taskRepository.GetByID]
      split <;> rfl
    · intro t
      dsimp only
      by_cases hc : (decide (t.Model.ID = id) && t.Model.DeletedAt.isNone) = true
      · rw [if_pos hc]
        refine ⟨rfl, rfl, ?_⟩
        cases req.Title with
        | none => left; rfl
        | some title => right; rfl
      · rw [if_neg hc]
        exact ⟨rfl, rfl, Or.inl rfl⟩

/-- `DeleteTask` over the table maps the rows by a function that keeps ids and
titles and leaves a deleted row deleted. -/
theorem DeleteTask_table (clock : Time) (id : Nat) (w : World gorm.DB) :
    ∃ g : models.Task → models.Task,
      (TaskServiceImpl.DeleteTask (NewTaskRepositoryImpl clock) id w).2.store
          = { w.store with tasks := w.store.tasks.map g }
        ∧ ∀ t, (g t).Model.ID = t.Model.ID ∧ (g t).Title = t.Title
          ∧ (t.Model.DeletedAt ≠ none → (g t).Model.DeletedAt ≠ none) := by
  refine ⟨fun t =>
      if decide (t.Model.ID = id) && t.Model.DeletedAt.isNone then
        { t with Model := { t.Model with DeletedAt := some clock } }
      else t, ?_, ?_⟩
  · simp only [TaskServiceImpl.DeleteTask, World.Delete, NewTaskRepositoryImpl,
      taskRepository.Delete, idQuery_holds]
  · intro t
    dsimp only
    by_cases hc : (decide (t.Model.ID = id) && t.Model.DeletedAt.isNone) = true
    · rw [if_pos hc]
      exact ⟨rfl, rfl, fun _ => by simp⟩
    · rw [if_neg hc]
      exact ⟨rfl, rfl, fun h => h⟩

/-- `GetTaskByID` over the table leaves the table as it is. -/
theorem GetTaskByID_table (clock : Time) (id : Nat) (w : World gorm.DB) :
    (TaskServiceImpl.GetTaskByID (NewTaskRepositoryImpl clock) id w).2.store = w.store := by
  simp only [TaskServiceImpl.GetTaskByID, World.GetByID, NewTaskRepositoryImpl,
    taskRepository.GetByID]
  split <;> split <;> simp_all

/-- `ListTasks` over the table leaves the table as it is. -/
theorem ListTasks_table (clock : Time) (filter : dto.TaskFilter) (w : World gorm.DB) :
    (TaskServiceImpl.ListTasks (NewTaskRepositoryImpl clock) filter w).2.store = w.store := by
  simp only [TaskServiceImpl.ListTasks, World.List, NewTaskRepositoryImpl,
    taskRepository.List]

/-- One service call keeps this about an id: some row has it, and every row
that has it is marked deleted. -/
theorem step_keeps_deleted (id : Nat) (e : Time × services.Call) (w : World gorm.DB)
    (hrow : ∃ t ∈ w.store.tasks, t.Model.ID = id)
    (hdel : ∀ t ∈ w.store.tasks, t.Model.ID = id → t.Model.DeletedAt ≠ none) :
    (∃ t ∈ (services.step e w).store.tasks, t.Model.ID = id)
      ∧ ∀ t ∈ (services.step e w).store.tasks, t.Model.ID = id → t.Model.DeletedAt ≠ none := by
  have hmap : ∀ f : models.Task → models.Task,
      (∀ t, (f t).Model.ID = t.Model.ID
        ∧ (t.Model.DeletedAt ≠ none → (f t).Model.DeletedAt ≠ none)) →
      (∃ t ∈ w.store.tasks.map f, t.Model.ID = id)
        ∧ ∀ t ∈ w.store.tasks.map f, t.Model.ID = id → t.Model.DeletedAt ≠ none := by
    intro f hf
    constructor
    · obtain ⟨t, ht, hid⟩ := hrow
      exact ⟨f t, List.mem_map_of_mem f ht, by rw [(hf t).1, hid]⟩
    · intro t ht hid
      obtain ⟨t0, ht0, rfl⟩ := List.mem_map.mp ht
      rw [(hf t0).1] at hid
      exact (hf t0).2 (hdel t0 ht0 hid)
  rcases e with ⟨clock, call⟩
  cases call with
  | CreateTask req =>
    simp only [services.step]
    rcases CreateTask_table clock clock req w with ⟨hsame, _⟩ | ⟨row, _, hstore, _, _, _, _, _, _, hfresh⟩
    · rw [hsame]
      exact ⟨hrow, hdel⟩
    · rw [hstore]
      constructor
      · obtain ⟨t, ht, hid⟩ := hrow
        exact ⟨t, List.mem_append_left _ ht, hid⟩
      · intro t ht hid
        rcases List.mem_append.mp ht with h | h
        · exact hdel t h hid
        · obtain ⟨t0, ht0, hid0⟩ := hrow
          rw [List.mem_singleton] at h
          subst h
          exact absurd (hid0.trans hid.symm) (hfresh t0 ht0)
  | GetTaskByID id0 =>
    simp only [services.step, GetTaskByID_table]
    exact ⟨hrow, hdel⟩
  | UpdateTask id0 req =>
    simp only [services.step]
    obtain ⟨f, hstore, hf⟩ := UpdateTask_table clock id0 req w
    rw [hstore]
    exact hmap f (fun t => ⟨(hf t).1, fun h => by rw [(hf t).2.1]; exact h⟩)
  | DeleteTask id0 =>
    simp only [services.step]
    obtain ⟨g, hstore, hg⟩ := DeleteTask_table clock id0 w
    rw [hstore]
    exact hmap g (fun t => ⟨(hg t).1, (hg t).2.2⟩)
  | ListTasks filter =>
    simp only [services.step, ListTasks_table]
    exact ⟨hrow, hdel⟩

/-- A run of service calls keeps the same. -/
theorem run_keeps_deleted (id : Nat) (calls : List (Time × services.Call))
    (w : World gorm.DB)
    (hrow : ∃ t ∈ w.store.tasks, t.Model.ID = id)
    (hdel : ∀ t ∈ w.store.tasks, t.Model.ID = id → t.Model.DeletedAt ≠ none) :
    (∃ t ∈ (services.run calls w).store.tasks, t.Model.ID = id)
      ∧ ∀ t ∈ (services.run calls w).store.tasks, t.Model.ID = id →
          t.Model.DeletedAt ≠ none := by
  induction calls generalizing w with
  | nil => exact ⟨hrow, hdel⟩
  | cons e rest ih =>
    have hstep := step_keeps_deleted id e w hrow hdel
    simpa only [services.run, List.foldl_cons] using ih (services.step e w) hstep.1 hstep.2

/-- When every row with an id is marked deleted, `GetByID` of the id finds no
record. -/
theorem GetByID_of_deleted (id : Nat) (db : gorm.DB)
    (hdel : ∀ t ∈ db.tasks, t.Model.ID = id → t.Model.DeletedAt ≠ none) :
    (taskRepository.GetByID id db).1 = (none, some gorm.ErrRecordNotFound) := by
  have hnone : db.tasks.find? (gorm.softDeleteScope (gorm.Query.Where [] (.idEq id))).holds
      = none := by
    rw [List.find?_eq_none]
    intro t ht
    rw [idQuery_holds]
    intro hc
    simp only [Bool.and_eq_true, decide_eq_true_eq, Option.isNone_iff_eq_none] at hc
    exact hdel t ht hc.1 hc.2
  simp only [taskRepository.GetByID, hnone]

/-- After `Delete` of an id every row with the id is marked deleted, and the
rows keep their ids. -/
theorem Delete_marks_deleted (clock : Time) (id : Nat) (db : gorm.DB) :
    (∀ t ∈ (taskRepository.Delete clock id db).2.tasks, t.Model.ID = id →
        t.Model.DeletedAt ≠ none)
      ∧ ((∃ t ∈ db.tasks, t.Model.ID = id) →
          ∃ t ∈ (taskRepository.Delete clock id db).2.tasks, t.Model.ID = id) := by
  simp only [taskRepository.Delete, idQuery_holds]
  constructor
  · intro t ht hid
    obtain ⟨t0, _, rfl⟩ := List.mem_map.mp ht
    by_cases hc : (decide (t0.Model.ID = id) && t0.Model.DeletedAt.isNone) = true
    · rw [if_pos hc]
      simp
    · rw [if_neg hc] at hid ⊢
      intro hnone
      apply hc
      simp [hid, hnone]
  · rintro ⟨t, ht, hid⟩
    refine ⟨_, List.mem_map_of_mem _ ht, ?_⟩
    by_cases hc : (decide (t.Model.ID = id) && t.Model.DeletedAt.isNone) = true
    · rw [if_pos hc]
      exact hid
    · rw [if_neg hc]
      exact hid

/-- C14, as the code has it: on the table model `Delete` of any id reports no
error, and `GetByID` of that id right after it finds no record; when the table
has a row with the id, the row stays in the table marked deleted and `GetByID`
of the id finds no record after any further run of create, get, update, delete
and list calls of the service, whatever their times. -/
theorem Delete_then_GetByID_finds_no_record (clock : Time) (id : Nat) (db : gorm.DB) :
    (taskRepository.Delete clock id db).1 = none
      ∧ (taskRepository.GetByID id (taskRepository.Delete clock id db).2).1
          = (none, some gorm.ErrRecordNotFound)
      ∧ ((∃ t ∈ db.tasks, t.Model.ID = id) →
          ∀ (calls : List (Time × services.Call)) (log : List repositories.Call),
            (taskRepository.GetByID id
                (services.run calls
                  { store := (taskRepository.Delete clock id db).2, calls := log }).store).1
              = (none, some gorm.ErrRecordNotFound)
            ∧ ∃ t ∈ (services.run calls
                  { store := (taskRepository.Delete clock id db).2, calls := log }).store.tasks,
                t.Model.ID = id ∧ t.Model.DeletedAt ≠ none) := by
  have hmarks := Delete_marks_deleted clock id db
  refine ⟨rfl, GetByID_of_deleted id _ hmarks.1, ?_⟩
  intro hrow calls log
  have hrun := run_keeps_deleted id calls
    { store := (taskRepository.Delete clock id db).2, calls := log } (hmarks.2 hrow) hmarks.1
  refine ⟨GetByID_of_deleted id _ hrun.2, ?_⟩
  obtain ⟨t, ht, hid⟩ := hrun.1
  exact ⟨t, ht, hid, hrun.2 t ht hid⟩

/-- Witness of C14: task 1 of the sample table is deleted, then a task is
created and an update and a second delete of id 1 are tried; id 1 is still not
found. -/
theorem Delete_then_GetByID_finds_no_record_witness :
    (∃ t ∈ Sample.db.tasks, t.Model.ID = 1)
      ∧ (taskRepository.GetByID 1
          (services.run
            [(Sample.noon, .CreateTask
                { Title := "water plants", Description := "", Date := Sample.today }),
             (Sample.noon, .UpdateTask 1
                { Title := some "pay the rent", Description := none, Date := none,
                  Completed := none }),
             (Sample.noon, .DeleteTask 1)]
            { store := (taskRepository.Delete 9 1 Sample.db).2, calls := [] }).store).1
        = (none, some gorm.ErrRecordNotFound) :=
  ⟨⟨Sample.rent, by decide, by decide⟩,
    (((Delete_then_GetByID_finds_no_record 9 1 Sample.db).2.2
      ⟨Sample.rent, by decide, by decide⟩)
      [(Sample.noon, .CreateTask
          { Title := "water plants", Description := "", Date := Sample.today }),
       (Sample.noon, .UpdateTask 1
          { Title := some "pay the rent", Description := none, Date := none,
            Completed := none }),
       (Sample.noon, .DeleteTask 1)] []).1⟩

/-- C14 fails as stated for an id that has no row: on a table with no row yet,
`Delete` of id 1 reports no error, the next create is given id 1 by the
sequence, and `GetByID` of 1 then returns that task. -/
theorem Delete_of_missing_id_then_create_is_found :
    (taskRepository.Delete 9 1 Sample.fresh.store).1 = none
      ∧ (taskRepository.GetByID 1
          (services.run
            [(Sample.noon, .CreateTask
                { Title := "water plants", Description := "", Date := Sample.today })]
            { store := (taskRepository.Delete 9 1 Sample.fresh.store).2, calls := [] }).store).1
        = (some
            { Model := { ID := 1, CreatedAt := Sample.noon, UpdatedAt := Sample.noon,
                         DeletedAt := none }
              Title := "water plants", Description := "", Date := Sample.today,
              Completed := false },
           none) := by
  decide

/-- C15: over any repository, `DeleteTask` returns no error exactly when the
repository's `Delete` returns none, and otherwise an error whose message is
"failed to delete task: " followed by the cause's message; and on the table
model `Delete` never returns an error, and for an id with no row that is not
yet deleted (missing, or deleted before) it leaves the table as it is. -/
theorem DeleteTask_reports_only_repository_errors {σ : Type} (repo : TaskRepository σ)
    (id : Nat) (w : World σ) (clock : Time) (db : gorm.DB) (log : List repositories.Call) :
    ((TaskServiceImpl.DeleteTask repo id w).1 = none ↔ (repo.Delete id w.store).1 = none)
      ∧ (∀ cause, (repo.Delete id w.store).1 = some cause →
          (TaskServiceImpl.DeleteTask repo id w).1
              = some (fmt.Errorf_w "failed to delete task: " cause)
            ∧ (fmt.Errorf_w "failed to delete task: " cause).Error
              = "failed to delete task: " ++ cause.Error)
      ∧ (TaskServiceImpl.DeleteTask (NewTaskRepositoryImpl clock) id
            { store := db, calls := log }).1 = none
      ∧ ((∀ t ∈ db.tasks, t.Model.ID = id → t.Model.DeletedAt ≠ none) →
          (TaskServiceImpl.DeleteTask (NewTaskRepositoryImpl clock) id
              { store := db, calls := log }).2.store = db) := by
  refine ⟨?_, ?_, ?_, ?_⟩
  · simp only [TaskServiceImpl.DeleteTask, World.Delete]
    cases (repo.Delete id w.store).1 <;> simp
  · intro cause hcause
    refine ⟨?_, rfl⟩
    simp only [TaskServiceImpl.DeleteTask, World.Delete, hcause]
  · simp only [TaskServiceImpl.DeleteTask, World.Delete, NewTaskRepositoryImpl,
      taskRepository.Delete]
  · intro hnone
    simp only [TaskServiceImpl.DeleteTask, World.Delete, NewTaskRepositoryImpl,
      taskRepository.Delete, idQuery_holds]
    have hmap : db.tasks.map (fun t =>
        if (decide (t.Model.ID = id) && t.Model.DeletedAt.isNone) = true then
          { t with Model := { t.Model with DeletedAt := some clock } }
        else t) = db.tasks := by
      rw [List.map_congr_left (g := fun t => t)]
      · exact List.map_id'' (fun _ => rfl) db.tasks
      · intro t ht
        have hc : ¬ (decide (t.Model.ID = id) && t.Model.DeletedAt.isNone) = true := by
          intro hc
          simp only [Bool.and_eq_true, decide_eq_true_eq, Option.isNone_iff_eq_none] at hc
          exact hnone t ht hc.1 hc.2
        rw [if_neg hc]
    rw [hmap]

/-- Witness of C15: deleting the already deleted task 2 and the missing id 7
both report no error and leave the sample table as it is. -/
theorem DeleteTask_reports_only_repository_errors_witness :
    (TaskServiceImpl.DeleteTask (NewTaskRepositoryImpl 9) 2 Sample.world).1 = none
      ∧ (TaskServiceImpl.DeleteTask (NewTaskRepositoryImpl 9) 2 Sample.world).2.store
        = Sample.db
      ∧ (TaskServiceImpl.DeleteTask (NewTaskRepositoryImpl 9) 7 Sample.world).1 = none
      ∧ (TaskServiceImpl.DeleteTask (NewTaskRepositoryImpl 9) 7 Sample.world).2.store
        = Sample.db :=
  ⟨(DeleteTask_reports_only_repository_errors (NewTaskRepositoryImpl 9) 2 Sample.world 9
      Sample.db []).2.2.1,
    (DeleteTask_reports_only_repository_errors (NewTaskRepositoryImpl 9) 2 Sample.world 9
      Sample.db []).2.2.2 (by decide),
    (DeleteTask_reports_only_repository_errors (NewTaskRepositoryImpl 9) 7 Sample.world 9
      Sample.db []).2.2.1,
    (DeleteTask_reports_only_repository_errors (NewTaskRepositoryImpl 9) 7 Sample.world 9
      Sample.db []).2.2.2 (by decide)⟩

/-- C16: on the table model, when `CreateTask` accepts a request and returns a
task, `GetTaskByID` on the id of that task returns that very task with no
error, whatever the time of the read; and the task has the request's title,
description and date and is not completed. -/
theorem GetTaskByID_after_CreateTask (clock now : Time) (req : dto.CreateTaskServiceRequest)
    (w : World gorm.DB) (task : models.Task) (clockOfRead : Time)
    (haccept : (TaskServiceImpl.CreateTask (NewTaskRepositoryImpl clock) now req w).1
      = (some task, none)) :
    (TaskServiceImpl.GetTaskByID (NewTaskRepositoryImpl clockOfRead) task.Model.ID
        (TaskServiceImpl.CreateTask (NewTaskRepositoryImpl clock) now req w).2).1
        = (some task, none)
      ∧ task.Title = req.Title ∧ task.Description = req.Description
      ∧ task.Date = req.Date ∧ task.Completed = false := by
  rcases CreateTask_table clock now req w with
    ⟨_, hnone⟩ | ⟨row, hres, hstore, ht, hd, hdate, hc, hdel, _, hfresh⟩
  · rw [haccept] at hnone
    exact absurd hnone (by simp)
  · have hrow : row = task := by
      rw [haccept] at hres
      exact (Option.some.inj (congrArg Prod.fst hres)).symm
    subst hrow
    refine ⟨?_, ht, hd, hdate, hc⟩
    have hold : w.store.tasks.find?
        (gorm.softDeleteScope (gorm.Query.Where [] (.idEq row.Model.ID))).holds = none := by
      rw [List.find?_eq_none]
      intro t ht0
      rw [idQuery_holds]
      intro hcond
      simp only [Bool.and_eq_true, decide_eq_true_eq] at hcond
      exact hfresh t ht0 hcond.1
    have hnew : (gorm.softDeleteScope (gorm.Query.Where [] (.idEq row.Model.ID))).holds row
        = true := by
      rw [idQuery_holds]
      simp [hdel]
    have hget : ∀ w1 : World gorm.DB,
        w1.store = { tasks := w.store.tasks ++ [row], seq := w.store.seq + 1 } →
        (TaskServiceImpl.GetTaskByID (NewTaskRepositoryImpl clockOfRead) row.Model.ID w1).1
          = (some row, none) := by
      intro w1 hw1
      simp only [TaskServiceImpl.GetTaskByID, World.GetByID, NewTaskRepositoryImpl,
        taskRepository.GetByID, hw1, List.find?_append, hold, Option.none_or,
        List.find?_cons, hnew]
    exact hget _ hstore

/-- Witness of C16: a task created in the sample table today is read back
under the id the sequence gave it. -/
theorem GetTaskByID_after_CreateTask_witness :
    (TaskServiceImpl.CreateTask (NewTaskRepositoryImpl 5) Sample.noon
        { Title := "water plants", Description := "", Date := Sample.today } Sample.world).1
      = (some
          { Model := { ID := 3, CreatedAt := 5, UpdatedAt := 5, DeletedAt := none }
            Title := "water plants", Description := "", Date := Sample.today,
            Completed := false },
         none)
      ∧ (TaskServiceImpl.GetTaskByID (NewTaskRepositoryImpl 6) 3
          (TaskServiceImpl.CreateTask (NewTaskRepositoryImpl 5) Sample.noon
            { Title := "water plants", Description := "", Date := Sample.today }
            Sample.world).2).1
        = (some
            { Model := { ID := 3, CreatedAt := 5, UpdatedAt := 5, DeletedAt := none }
              Title := "water plants", Description := "", Date := Sample.today,
              Completed := false },
           none) :=
  ⟨by decide,
    (GetTaskByID_after_CreateTask 5 Sample.noon
      { Title := "water plants", Description := "", Date := Sample.today } Sample.world
      { Model := { ID := 3, CreatedAt := 5, UpdatedAt := 5, DeletedAt := none }
        Title := "water plants", Description := "", Date := Sample.today,
        Completed := false }
      6 (by decide)).1⟩

end Runs

section Titles

variable {ω : Type}

/-- A struct that passes `ShouldBindJSON` is the decoded one and fails no tag. -/
theorem ShouldBindJSON_ok {α : Type} (decoded : Except GoError α) (structName : String)
    (failedTags : α → List (String × String)) (req : α)
    (h : gin.ShouldBindJSON decoded structName failedTags = .ok req) :
    decoded = .ok req ∧ failedTags req = [] := by
  unfold gin.ShouldBindJSON at h
  cases decoded with
  | error err => cases h
  | ok req0 =>
    simp only [validator.validationErrors] at h
    by_cases hempty : (failedTags req0).isEmpty = true
    · simp only [hempty, if_true] at h
      cases h
      exact ⟨rfl, List.isEmpty_iff.mp hempty⟩
    · simp only [hempty, if_false] at h
      cases h

/-- The empty string is the only string of length zero. -/
theorem ne_empty_of_length_pos (s : String) (h : 0 < s.length) : s ≠ "" := by
  intro hs
  subst hs
  exact absurd h (by decide)

/-- The state the create handler leaves behind the service: untouched, or that
of one `CreateTask` call with the bound title. -/
theorem CreateTask_handler_state (service : TaskService ω)
    (decoded : Except GoError dto.CreateTaskRequest) (c : Server ω) :
    (TaskController.CreateTask service decoded c).2.service = c.service
      ∨ ∃ (req : dto.CreateTaskRequest) (serviceReq : dto.CreateTaskServiceRequest),
          gin.ShouldBindJSON decoded "CreateTaskRequest" dto.CreateTaskRequest.failedTags
              = .ok req
            ∧ serviceReq.Title = req.Title
            ∧ (TaskController.CreateTask service decoded c).2.service
              = (service.CreateTask serviceReq c.service).2 := by
  cases hb : gin.ShouldBindJSON decoded "CreateTaskRequest" dto.CreateTaskRequest.failedTags with
  | error err =>
    left
    simp only [TaskController.CreateTask, hb]
  | ok req =>
    cases hp : time.Parse req.DateString with
    | none =>
      left
      simp only [TaskController.CreateTask, hb, hp]
    | some date =>
      right
      refine ⟨req, { Title := req.Title, Description := req.Description, Date := date },
        rfl, rfl, ?_⟩
      simp only [TaskController.CreateTask, hb, hp, Server.CreateTask]
      split
      · rfl
      · split <;> rfl

/-- The state the update handler leaves behind the service: untouched, or that
of one `UpdateTask` call with the bound title. -/
theorem UpdateTask_handler_state (service : TaskService ω) (idParam : String)
    (decoded : Except GoError dto.UpdateTaskRequest) (c : Server ω) :
    (TaskController.UpdateTask service idParam decoded c).2.service = c.service
      ∨ ∃ (id : Nat) (req : dto.UpdateTaskRequest) (serviceReq : dto.UpdateTaskServiceRequest),
          gin.ShouldBindJSON decoded "UpdateTaskRequest" dto.UpdateTaskRequest.failedTags
              = .ok req
            ∧ serviceReq.Title = req.Title
            ∧ (TaskController.UpdateTask service idParam decoded c).2.service
              = (service.UpdateTask id serviceReq c.service).2 := by
  cases hid : strconv.ParseUint idParam 10 32 with
  | none =>
    left
    simp only [TaskController.UpdateTask, hid]
  | some id =>
    cases hb : gin.ShouldBindJSON decoded "UpdateTaskRequest"
        dto.UpdateTaskRequest.failedTags with
    | error err =>
      left
      simp only [TaskController.UpdateTask, hid, hb]
    | ok req =>
      cases hs : TaskController.serviceRequestOf req with
      | none =>
        left
        simp only [TaskController.UpdateTask, hid, hb, hs]
      | some serviceReq =>
        right
        refine ⟨id, req, serviceReq, rfl, ?_, ?_⟩
        · unfold TaskController.serviceRequestOf at hs
          cases hd : req.DateString with
          | none =>
            simp only [hd] at hs
            cases hs
            rfl
          | some dateString =>
            simp only [hd] at hs
            cases hp : time.Parse dateString with
            | none => simp [hp] at hs
            | some date =>
              simp only [hp] at hs
              cases hs
              rfl
        · simp only [TaskController.UpdateTask, hid, hb, hs, Server.UpdateTask]
          split
          · split <;> rfl
          · split <;> rfl

/-- A create body that fails no tag has a title of 1 to 255 characters, a
description of at most 1000 and a date string that is not empty. -/
theorem CreateTaskRequest_valid (req : dto.CreateTaskRequest)
    (h : dto.CreateTaskRequest.failedTags req = []) :
    0 < req.Title.length ∧ req.Title.length ≤ 255 ∧ req.Description.length ≤ 1000
      ∧ 0 < req.DateString.length := by
  unfold dto.CreateTaskRequest.failedTags at h
  by_cases h1 : req.Title.length = 0
  · simp [h1] at h
  · by_cases h2 : 255 < req.Title.length
    · simp [h1, h2] at h
    · by_cases h3 : 1000 < req.Description.length
      · simp [h1, h2, h3] at h
      · by_cases h4 : req.DateString.length = 0
        · simp [h1, h2, h3, h4] at h
        · omega

/-- An update body that fails no tag has, when it has a title, one of 3 to 255
characters, and when it has a description, one of at most 1000. -/
theorem UpdateTaskRequest_valid (req : dto.UpdateTaskRequest)
    (h : dto.UpdateTaskRequest.failedTags req = []) :
    (∀ title, req.Title = some title → 3 ≤ title.length ∧ title.length ≤ 255)
      ∧ ∀ description, req.Description = some description → description.length ≤ 1000 := by
  unfold dto.UpdateTaskRequest.failedTags at h
  rcases req with ⟨_ | title, _ | description, dateString, completed⟩
  · simp
  · simp only [List.nil_append] at h
    by_cases h3 : 1000 < description.length
    · simp [h3] at h
    · simp; omega
  · simp only [List.append_nil] at h
    by_cases h1 : title.length < 3
    · simp [h1] at h
    · by_cases h2 : 255 < title.length
      · simp [h1, h2] at h
      · simp; omega
  · by_cases h1 : title.length < 3
    · simp [h1] at h
    · by_cases h2 : 255 < title.length
      · simp [h1, h2] at h
      · by_cases h3 : 1000 < description.length
        · simp [h1, h2, h3] at h
        · simp; omega

/-- The state the delete handler leaves behind the service: untouched, or that
of one `DeleteTask` call. -/
theorem DeleteTask_handler_state (service : TaskService ω) (idParam : String)
    (c : Server ω) :
    (TaskController.DeleteTask service idParam c).2.service = c.service
      ∨ ∃ id, (TaskController.DeleteTask service idParam c).2.service
          = (service.DeleteTask id c.service).2 := by
  cases hid : strconv.ParseUint idParam 10 32 with
  | none =>
    left
    simp only [TaskController.DeleteTask, hid]
  | some id =>
    right
    refine ⟨id, ?_⟩
    simp only [TaskController.DeleteTask, hid, Server.DeleteTask]
    split <;> rfl

/-- The state the get handler leaves behind the service: untouched, or that of
one `GetTaskByID` call. -/
theorem GetTaskByID_handler_state (service : TaskService ω) (idParam : String)
    (c : Server ω) :
    (TaskController.GetTaskByID service idParam c).2.service = c.service
      ∨ ∃ id, (TaskController.GetTaskByID service idParam c).2.service
          = (service.GetTaskByID id c.service).2 := by
  cases hid : strconv.ParseUint idParam 10 32 with
  | none =>
    left
    simp only [TaskController.GetTaskByID, hid]
  | some id =>
    right
    refine ⟨id, ?_⟩
    simp only [TaskController.GetTaskByID, hid, Server.GetTaskByID]
    split
    · rfl
    · split <;> rfl

/-- The state the list handler leaves behind the service: untouched, or that of
one `ListTasks` call. -/
theorem ListTasks_handler_state (service : TaskService ω)
    (bound : Except GoError dto.TaskFilterRequest) (c : Server ω) :
    (TaskController.ListTasks service bound c).2.service = c.service
      ∨ ∃ filter, (TaskController.ListTasks service bound c).2.service
          = (service.ListTasks filter c.service).2 := by
  cases bound with
  | error err =>
    left
    simp only [TaskController.ListTasks]
  | ok req =>
    right
    refine ⟨convertToServiceFilter req, ?_⟩
    simp only [TaskController.ListTasks, Server.ListTasks]
    split <;> rfl

/-- One request to the server leaves no task with an empty title when there was
none before. -/
theorem handle_keeps_titles (now : Time) (request : transport.Request)
    (c : Server (World gorm.DB))
    (h : ∀ t ∈ c.service.store.tasks, t.Title ≠ "") :
    ∀ t ∈ (transport.handle now request c).2.service.store.tasks, t.Title ≠ "" := by
  have hmap : ∀ f : models.Task → models.Task,
      (∀ t, t.Title ≠ "" → (f t).Title ≠ "") →
      ∀ t ∈ c.service.store.tasks.map f, t.Title ≠ "" := by
    intro f hf t ht
    obtain ⟨t0, ht0, rfl⟩ := List.mem_map.mp ht
    exact hf t0 (h t0 ht0)
  cases request with
  | create decoded =>
    simp only [transport.handle, transport.route]
    rcases CreateTask_handler_state
        (NewTaskServiceImpl (NewTaskRepositoryImpl now) now) decoded c with
      hsame | ⟨req, serviceReq, hbind, htitle, hstate⟩
    · rw [hsame]; exact h
    · rw [hstate]
      have hvalid := CreateTaskRequest_valid req (ShouldBindJSON_ok _ _ _ _ hbind).2
      show ∀ t ∈ (TaskServiceImpl.CreateTask (NewTaskRepositoryImpl now) now serviceReq
        c.service).2.store.tasks, t.Title ≠ ""
      rcases CreateTask_table now now serviceReq c.service with
        ⟨hstore, _⟩ | ⟨row, _, hstore, hrow, _⟩
      · rw [hstore]; exact h
      · rw [hstore]
        intro t ht
        rcases List.mem_append.mp ht with h0 | h0
        · exact h t h0
        · rw [List.mem_singleton] at h0
          subst h0
          rw [hrow, htitle]
          exact ne_empty_of_length_pos _ hvalid.1
  | get idParam =>
    simp only [transport.handle, transport.route]
    rcases GetTaskByID_handler_state
        (NewTaskServiceImpl (NewTaskRepositoryImpl now) now) idParam c with
      hsame | ⟨id, hstate⟩
    · rw [hsame]; exact h
    · rw [hstate]
      show ∀ t ∈ (TaskServiceImpl.GetTaskByID (NewTaskRepositoryImpl now) id
        c.service).2.store.tasks, t.Title ≠ ""
      rw [GetTaskByID_table]
      exact h
  | update idParam decoded =>
    simp only [transport.handle, transport.route]
    rcases UpdateTask_handler_state
        (NewTaskServiceImpl (NewTaskRepositoryImpl now) now) idParam decoded c with
      hsame | ⟨id, req, serviceReq, hbind, htitle, hstate⟩
    · rw [hsame]; exact h
    · rw [hstate]
      have hvalid := UpdateTaskRequest_valid req (ShouldBindJSON_ok _ _ _ _ hbind).2
      show ∀ t ∈ (TaskServiceImpl.UpdateTask (NewTaskRepositoryImpl now) id serviceReq
        c.service).2.store.tasks, t.Title ≠ ""
      obtain ⟨f, hstore, hf⟩ := UpdateTask_table now id serviceReq c.service
      rw [hstore]
      refine hmap f (fun t ht => ?_)
      rcases (hf t).2.2 with hkeep | hset
      · rw [hkeep]; exact ht
      · rw [htitle] at hset
        exact ne_empty_of_length_pos _ (by have := (hvalid.1 _ hset).1; omega)
  | delete idParam =>
    simp only [transport.handle, transport.route]
    rcases DeleteTask_handler_state
        (NewTaskServiceImpl (NewTaskRepositoryImpl now) now) idParam c with
      hsame | ⟨id, hstate⟩
    · rw [hsame]; exact h
    · rw [hstate]
      show ∀ t ∈ (TaskServiceImpl.DeleteTask (NewTaskRepositoryImpl now) id
        c.service).2.store.tasks, t.Title ≠ ""
      obtain ⟨g, hstore, hg⟩ := DeleteTask_table now id c.service
      rw [hstore]
      exact hmap g (fun t ht => by rw [(hg t).2.1]; exact ht)
  | list bound =>
    simp only [transport.handle, transport.route]
    rcases ListTasks_handler_state
        (NewTaskServiceImpl (NewTaskRepositoryImpl now) now) bound c with
      hsame | ⟨filter, hstate⟩
    · rw [hsame]; exact h
    · rw [hstate]
      show ∀ t ∈ (TaskServiceImpl.ListTasks (NewTaskRepositoryImpl now) filter
        c.service).2.store.tasks, t.Title ≠ ""
      rw [ListTasks_table]
      exact h

/-- C17: a create body passes binding only with a title of 1 to 255 characters,
an update body that supplies a title passes binding only with one of 3 to 255
characters, a supplied empty title being rejected, and so after any run of
requests to the five routes, whatever their times, on a table in which no
task has an empty title, no task has an empty title. -/
theorem titles_stay_non_empty (requests : List (Time × transport.Request))
    (c : Server (World gorm.DB))
    (hinit : ∀ t ∈ c.service.store.tasks, t.Title ≠ "") :
    (∀ (decoded : Except GoError dto.CreateTaskRequest) (req : dto.CreateTaskRequest),
        gin.ShouldBindJSON decoded "CreateTaskRequest" dto.CreateTaskRequest.failedTags
          = .ok req →
        req.Title ≠ "" ∧ 1 ≤ req.Title.length ∧ req.Title.length ≤ 255)
      ∧ (∀ (decoded : Except GoError dto.UpdateTaskRequest) (req : dto.UpdateTaskRequest)
          (title : String),
          gin.ShouldBindJSON decoded "UpdateTaskRequest" dto.UpdateTaskRequest.failedTags
            = .ok req →
          req.Title = some title →
          title ≠ "" ∧ 3 ≤ title.length ∧ title.length ≤ 255)
      ∧ (∀ (description dateString : Option String) (completed : Option Bool),
          ∃ err, gin.ShouldBindJSON
              (.ok { Title := some "", Description := description,
                     DateString := dateString, Completed := completed })
              "UpdateTaskRequest" dto.UpdateTaskRequest.failedTags
            = .error err)
      ∧ ∀ t ∈ (transport.serve requests c).service.store.tasks, t.Title ≠ "" := by
  refine ⟨?_, ?_, ?_, ?_⟩
  · intro decoded req hbind
    have hvalid := CreateTaskRequest_valid req (ShouldBindJSON_ok _ _ _ _ hbind).2
    exact ⟨ne_empty_of_length_pos _ hvalid.1, hvalid.1, hvalid.2.1⟩
  · intro decoded req title hbind htitle
    have hvalid := (UpdateTaskRequest_valid req (ShouldBindJSON_ok _ _ _ _ hbind).2).1
      title htitle
    exact ⟨ne_empty_of_length_pos _ (by omega), hvalid.1, hvalid.2⟩
  · intro description dateString completed
    cases hb : gin.ShouldBindJSON
        (.ok { Title := some "", Description := description,
               DateString := dateString, Completed := completed })
        "UpdateTaskRequest" dto.UpdateTaskRequest.failedTags with
    | error err => exact ⟨err, rfl⟩
    | ok req =>
      have hok := ShouldBindJSON_ok _ _ _ _ hb
      have hreq : req.Title = some "" := by
        rw [← Except.ok.inj hok.1]
      have hvalid := (UpdateTaskRequest_valid req hok.2).1 "" hreq
      exact absurd hvalid.1 (by decide)
  · induction requests generalizing c with
    | nil => exact hinit
    | cons e rest ih =>
      simp only [transport.serve, List.foldl_cons]
      exact ih _ (handle_keeps_titles e.1 e.2 c hinit)

/-- Witness of C17: on the sample table an update of task 1 with an empty title
is turned down and a create with a one-letter title is stored; no title is
empty afterwards. -/
theorem titles_stay_non_empty_witness :
    (∀ t ∈ Sample.server.service.store.tasks, t.Title ≠ "")
      ∧ ∀ t ∈ (transport.serve
          [(Sample.noon, .update "1"
              (.ok { Title := some "", Description := none, DateString := none,
                     Completed := none })),
           (Sample.noon, .create
              (.ok { Title := "x", Description := "", DateString := "2025-01-01" }))]
          Sample.server).service.store.tasks, t.Title ≠ "" :=
  ⟨by decide,
    (titles_stay_non_empty
      [(Sample.noon, .update "1"
          (.ok { Title := some "", Description := none, DateString := none,
                 Completed := none })),
       (Sample.noon, .create
          (.ok { Title := "x", Description := "", DateString := "2025-01-01" }))]
      Sample.server (by decide)).2.2.2⟩

end Titles

section Envelopes

variable {ω : Type}

/-- C18: `SuccessResponse` builds the envelope with status "success", the given
message and the given data, `ErrorResponse` the one with status "error", the
given message and no data; and whatever envelope a handler of the five routes
writes, over any service, is built by one of the two, with status "error"
exactly when the status code is 400 or above (400 or 500) and status
"success" otherwise (200 or 201). -/
theorem envelopes_are_success_or_error (service : TaskService ω)
    (request : transport.Request) (c : Server ω) (msg : String) (data : Option dto.Data) :
    dto.SuccessResponse msg data = { Status := "success", Message := msg, Data := data }
      ∧ dto.ErrorResponse msg = { Status := "error", Message := msg, Data := none }
      ∧ ∀ code obj, (transport.route service request c).1 = .JSON code obj →
          (obj.Status = "success" ∨ obj.Status = "error")
            ∧ (obj.Status = "error" ↔ 400 ≤ code)
            ∧ (((∃ m d, obj = dto.SuccessResponse m d) ∧ (code = 200 ∨ code = 201))
              ∨ ((∃ m, obj = dto.ErrorResponse m) ∧ (code = 400 ∨ code = 500))) := by
  refine ⟨rfl, rfl, ?_⟩
  have herr : ∀ (k : Nat) (m : String) (code : Nat) (obj : dto.Response),
      (k = 400 ∨ k = 500) → gin.Result.JSON k (dto.ErrorResponse m) = .JSON code obj →
      (obj.Status = "success" ∨ obj.Status = "error")
        ∧ (obj.Status = "error" ↔ 400 ≤ code)
        ∧ (((∃ m d, obj = dto.SuccessResponse m d) ∧ (code = 200 ∨ code = 201))
          ∨ ((∃ m, obj = dto.ErrorResponse m) ∧ (code = 400 ∨ code = 500))) := by
    intro k m code obj hk h
    cases h
    refine ⟨Or.inr rfl, ⟨fun _ => by omega, fun _ => rfl⟩, Or.inr ⟨⟨m, rfl⟩, hk⟩⟩
  have hok : ∀ (k : Nat) (m : String) (d : Option dto.Data) (code : Nat) (obj : dto.Response),
      (k = 200 ∨ k = 201) → gin.Result.JSON k (dto.SuccessResponse m d) = .JSON code obj →
      (obj.Status = "success" ∨ obj.Status = "error")
        ∧ (obj.Status = "error" ↔ 400 ≤ code)
        ∧ (((∃ m d, obj = dto.SuccessResponse m d) ∧ (code = 200 ∨ code = 201))
          ∨ ((∃ m, obj = dto.ErrorResponse m) ∧ (code = 400 ∨ code = 500))) := by
    intro k m d code obj hk h
    cases h
    refine ⟨Or.inl rfl, ⟨fun h => ?_, fun h => by omega⟩, Or.inl ⟨⟨m, d, rfl⟩, hk⟩⟩
    exact absurd h (by simp [dto.SuccessResponse])
  intro code obj
  cases request with
  | create decoded =>
    simp only [transport.route, TaskController.CreateTask]
    repeat' split
    all_goals first
      | exact herr _ _ code obj (Or.inl rfl)
      | exact herr _ _ code obj (Or.inr rfl)
      | exact hok _ _ _ code obj (Or.inr rfl)
      | exact fun h => by cases h
  | get idParam =>
    simp only [transport.route, TaskController.GetTaskByID]
    repeat' split
    all_goals first
      | exact herr _ _ code obj (Or.inl rfl)
      | exact herr _ _ code obj (Or.inr rfl)
      | exact hok _ _ _ code obj (Or.inl rfl)
      | exact fun h => by cases h
  | update idParam decoded =>
    simp only [transport.route, TaskController.UpdateTask]
    repeat' split
    all_goals first
      | exact herr _ _ code obj (Or.inl rfl)
      | exact herr _ _ code obj (Or.inr rfl)
      | exact hok _ _ _ code obj (Or.inl rfl)
      | exact fun h => by cases h
  | delete idParam =>
    simp only [transport.route, TaskController.DeleteTask]
    repeat' split
    all_goals first
      | exact herr _ _ code obj (Or.inl rfl)
      | exact herr _ _ code obj (Or.inr rfl)
      | exact fun h => by cases h
  | list bound =>
    simp only [transport.route, TaskController.ListTasks]
    repeat' split
    all_goals first
      | exact herr _ _ code obj (Or.inl rfl)
      | exact herr _ _ code obj (Or.inr rfl)
      | exact hok _ _ _ code obj (Or.inl rfl)

/-- Witness of C18: the envelope for the missing task 2 has status "error" under
code 500, the one for task 1 has status "success" under code 200. -/
theorem envelopes_are_success_or_error_witness :
    (transport.route Sample.service (.get "2") Sample.server).1
        = .JSON 500 (dto.ErrorResponse "failed to get task: record not found")
      ∧ ((dto.ErrorResponse "failed to get task: record not found").Status = "error"
          ↔ 400 ≤ 500)
      ∧ (transport.route Sample.service (.get "1") Sample.server).1
        = .JSON 200 (dto.SuccessResponse "Task retrieved successfully"
            (some (.task Sample.rent)))
      ∧ ((dto.SuccessResponse "Task retrieved successfully"
            (some (.task Sample.rent))).Status = "error" ↔ 400 ≤ 200) :=
  ⟨by decide,
    ((envelopes_are_success_or_error Sample.service (.get "2") Sample.server "" none).2.2
      500 (dto.ErrorResponse "failed to get task: record not found") (by decide)).2.1,
    by decide,
    ((envelopes_are_success_or_error Sample.service (.get "1") Sample.server "" none).2.2
      200 (dto.SuccessResponse "Task retrieved successfully" (some (.task Sample.rent)))
      (by decide)).2.1⟩

/-- C19: for an id parameter that parses, the delete handler answers with a bare
status 200, no body and no envelope, when the service's `DeleteTask` returns
no error, and with 500 and the error envelope carrying the error's message
when it returns one. -/
theorem DeleteTask_handler_answers (service : TaskService ω) (idParam : String) (id : Nat)
    (c : Server ω) (hparse : strconv.ParseUint idParam 10 32 = some id) :
    ((service.DeleteTask id c.service).1 = none →
        (TaskController.DeleteTask service idParam c).1 = .Status 200)
      ∧ (∀ err, (service.DeleteTask id c.service).1 = some err →
          (TaskController.DeleteTask service idParam c).1
            = .JSON 500 { Status := "error", Message := err.Error, Data := none })
      ∧ (TaskController.DeleteTask service idParam c).2.calls = c.calls ++ [.DeleteTask id] := by
  refine ⟨?_, ?_, ?_⟩
  · intro hnone
    simp only [TaskController.DeleteTask, hparse, Server.DeleteTask, hnone]
    rfl
  · intro err herr
    simp only [TaskController.DeleteTask, hparse, Server.DeleteTask, herr]
    rfl
  · simp only [TaskController.DeleteTask, hparse, Server.DeleteTask]
    split <;> rfl

/-- Witness of C19: deleting task 1 of the sample table is answered with a bare
200. -/
theorem DeleteTask_handler_answers_witness :
    strconv.ParseUint "1" 10 32 = some 1
      ∧ (Sample.service.DeleteTask 1 Sample.server.service).1 = none
      ∧ (TaskController.DeleteTask Sample.service "1" Sample.server).1 = .Status 200 :=
  ⟨by decide, by decide,
    (DeleteTask_handler_answers Sample.service "1" 1 Sample.server (by decide)).1
      (by decide)⟩

/-- C20 fails as stated: a successful delete of task 1 is answered with the
status 200 that the handler passes to `ctx.Status`, not with the 204 its
documentation names. -/
theorem DeleteTask_handler_success_is_200_not_204 :
    (Sample.service.DeleteTask 1 Sample.server.service).1 = none
      ∧ (TaskController.DeleteTask Sample.service "1" Sample.server).1
        = .Status http.StatusOK
      ∧ http.StatusOK = 200
      ∧ (TaskController.DeleteTask Sample.service "1" Sample.server).1 ≠ .Status 204 := by
  decide

/-- C20, as the code has it: on a successful delete, that is for an id
parameter that parses and a service whose `DeleteTask` returns no error, the
delete handler answers with `http.StatusOK`, which is 200, and writes no body;
it does not answer 204. -/
theorem DeleteTask_handler_success_is_200 (service : TaskService ω) (idParam : String)
    (id : Nat) (c : Server ω)
    (hparse : strconv.ParseUint idParam 10 32 = some id)
    (hok : (service.DeleteTask id c.service).1 = none) :
    (TaskController.DeleteTask service idParam c).1 = .Status http.StatusOK
      ∧ http.StatusOK = 200
      ∧ (TaskController.DeleteTask service idParam c).1 ≠ .Status 204
      ∧ ∀ code obj, (TaskController.DeleteTask service idParam c).1 ≠ .JSON code obj := by
  have hres : (TaskController.DeleteTask service idParam c).1 = .Status http.StatusOK := by
    simp only [TaskController.DeleteTask, hparse, Server.DeleteTask, hok]
  refine ⟨hres, rfl, ?_, ?_⟩
  · rw [hres]
    decide
  · intro code obj
    rw [hres]
    exact fun h => by cases h

/-- Witness of the amended C20: deleting the stored task 1 of the sample table
is answered with the bare status 200. -/
theorem DeleteTask_handler_success_is_200_witness :
    strconv.ParseUint "1" 10 32 = some 1
      ∧ (Sample.service.DeleteTask 1 Sample.server.service).1 = none
      ∧ (TaskController.DeleteTask Sample.service "1" Sample.server).1
        = .Status http.StatusOK :=
  ⟨by decide, by decide,
    (DeleteTask_handler_success_is_200 Sample.service "1" 1 Sample.server (by decide)
      (by decide)).1⟩

end Envelopes

section Pagination

/-- The selection of the specification, field by field. -/
theorem selects_iff (filter : dto.TaskFilter) (t : models.Task) :
    Spec.selects filter t = true
      ↔ t.Model.DeletedAt = none
        ∧ (filter.Completed = none ∨ filter.Completed = some t.Completed)
        ∧ (filter.DateFrom = none ∨ ∃ dateFrom, filter.DateFrom = some dateFrom
            ∧ dateFrom ≤ t.Date)
        ∧ (filter.DateTo = none ∨ ∃ dateTo, filter.DateTo = some dateTo
            ∧ t.Date ≤ dateTo) := by
  have hflip : ∀ b : Bool, t.Completed = b ↔ b = t.Completed := fun b => eq_comm
  rcases filter with ⟨_ | completed, _ | dateFrom, _ | dateTo, limit, offset⟩ <;>
    simp [Spec.selects, hflip, and_assoc]

/-- C21: on the table model, for a filter with limit at least 1 and offset at
least 0, `taskRepository.List` returns without error the tasks the filter
selects (not deleted, completed flag as asked, date within each given bound),
in the order of the table, without the first `Offset` of them and cut after
`Limit`; so it returns at most `Limit` tasks, each a row of the table that is
not deleted and meets each filter that is present, none when the offset is at
least the number of selected rows, and it leaves the table as it is. -/
theorem List_skips_offset_keeps_limit (filter : dto.TaskFilter) (db : gorm.DB)
    (hlimit : 1 ≤ filter.Limit) (hoffset : 0 ≤ filter.Offset) :
    (taskRepository.List filter db).1
        = (((db.tasks.filter (Spec.selects filter)).drop
              filter.Offset.toNat).take filter.Limit.toNat, none)
      ∧ (taskRepository.List filter db).2 = db
      ∧ (((taskRepository.List filter db).1.1.length : Nat) : Int) ≤ filter.Limit
      ∧ (∀ t ∈ (taskRepository.List filter db).1.1,
          t ∈ db.tasks
            ∧ t.Model.DeletedAt = none
            ∧ (filter.Completed = none ∨ filter.Completed = some t.Completed)
            ∧ (filter.DateFrom = none ∨ ∃ dateFrom, filter.DateFrom = some dateFrom
                ∧ dateFrom ≤ t.Date)
            ∧ (filter.DateTo = none ∨ ∃ dateTo, filter.DateTo = some dateTo
                ∧ t.Date ≤ dateTo))
      ∧ ((taskRepository.List filter db).1.1).Sublist db.tasks
      ∧ ((((db.tasks.filter (Spec.selects filter)).length : Nat) : Int)
            ≤ filter.Offset →
          (taskRepository.List filter db).1.1 = []) := by
  have hfun : taskRepository.listCondition filter = Spec.selects filter :=
    funext (listCondition_eq_selects filter)
  have hrows : (taskRepository.List filter db).1.1
      = ((db.tasks.filter (Spec.selects filter)).drop
          filter.Offset.toNat).take filter.Limit.toNat := by
    have hl : (0 : Int) ≤ filter.Limit := by omega
    simp only [taskRepository.List, gorm.applyLimit, gorm.applyOffset, hl, if_true, hfun]
    by_cases hpos : 0 < filter.Offset
    · simp only [hpos, if_true]
    · have hzero : filter.Offset.toNat = 0 := by omega
      simp only [hpos, if_false, hzero, List.drop_zero]
  refine ⟨?_, rfl, ?_, ?_, ?_, ?_⟩
  · exact Prod.ext hrows rfl
  · rw [hrows]
    have h1 := List.length_take_le filter.Limit.toNat
      ((db.tasks.filter (Spec.selects filter)).drop filter.Offset.toNat)
    omega
  · intro t ht
    rw [hrows] at ht
    have hmem := List.mem_of_mem_drop (List.mem_of_mem_take ht)
    exact ⟨(List.mem_filter.mp hmem).1, (selects_iff filter t).mp (List.mem_filter.mp hmem).2⟩
  · rw [hrows]
    exact ((List.take_sublist _ _).trans (List.drop_sublist _ _)).trans
      (List.filter_sublist _)
  · intro hfew
    rw [hrows]
    have hdrop : (db.tasks.filter (Spec.selects filter)).drop
        filter.Offset.toNat = [] := by
      apply List.drop_eq_nil_of_le
      omega
    rw [hdrop, List.take_nil]

/-- Witness of C21: with limit 1 and offset 0 the open tasks of the sample table
are the one task `rent`; with offset 1 nothing is left. -/
theorem List_skips_offset_keeps_limit_witness :
    (taskRepository.List
        { Completed := some false, DateFrom := none, DateTo := none, Limit := 1, Offset := 0 }
        Sample.db).1 = ([Sample.rent], none)
      ∧ (taskRepository.List
        { Completed := some false, DateFrom := none, DateTo := none, Limit := 1, Offset := 1 }
        Sample.db).1.1 = [] :=
  ⟨(List_skips_offset_keeps_limit
      { Completed := some false, DateFrom := none, DateTo := none, Limit := 1, Offset := 0 }
      Sample.db (by decide) (by decide)).1,
    (List_skips_offset_keeps_limit
      { Completed := some false, DateFrom := none, DateTo := none, Limit := 1, Offset := 1 }
      Sample.db (by decide) (by decide)).2.2.2.2.2 (by decide)⟩

end Pagination

section CreateErrors

variable {σ : Type}

/-- C22: for a create body that binds and whose date string parses, the create
handler over `TaskServiceImpl.CreateTask` answers a date before the current
time truncated to 24 hours with 500, not 400, and the error envelope with
message "task date cannot be in the past", without a repository call; and for
a date that is not before it, a failure of the repository's `Create` with 500
and the message "failed to create task: " followed by the cause's message. -/
theorem CreateTask_service_errors_are_500 (repo : TaskRepository σ) (now : Time)
    (decoded : Except GoError dto.CreateTaskRequest) (req : dto.CreateTaskRequest)
    (date : Time) (c : Server (World σ))
    (hbind : gin.ShouldBindJSON decoded "CreateTaskRequest"
      dto.CreateTaskRequest.failedTags = .ok req)
    (hdate : time.Parse req.DateString = some date) :
    (date < time.Truncate now (24 * time.Hour) →
        (TaskController.CreateTask (NewTaskServiceImpl repo now) decoded c).1
            = .JSON 500
                { Status := "error", Message := "task date cannot be in the past",
                  Data := none }
          ∧ (TaskController.CreateTask (NewTaskServiceImpl repo now) decoded c).2.service
            = c.service)
      ∧ (¬ date < time.Truncate now (24 * time.Hour) →
          ∀ cause : GoError,
            (repo.Create
                (TaskServiceImpl.newTask
                  { Title := req.Title, Description := req.Description, Date := date })
                c.service.store).1.2 = some cause →
            (TaskController.CreateTask (NewTaskServiceImpl repo now) decoded c).1
              = .JSON 500
                  { Status := "error",
                    Message := "failed to create task: " ++ cause.Error, Data := none }) := by
  constructor
  · intro hpast
    have hsvc : TaskServiceImpl.CreateTask repo now
        { Title := req.Title, Description := req.Description, Date := date } c.service
        = ((none, some (errors.New "task date cannot be in the past")), c.service) := by
      simp [TaskServiceImpl.CreateTask, time.Before, hpast]
    constructor
    · simp only [TaskController.CreateTask, hbind, hdate, Server.CreateTask,
        NewTaskServiceImpl, hsvc]
      rfl
    · simp only [TaskController.CreateTask, hbind, hdate, Server.CreateTask,
        NewTaskServiceImpl, hsvc]
  · intro hnot cause hcause
    have hsvc : (TaskServiceImpl.CreateTask repo now
        { Title := req.Title, Description := req.Description, Date := date } c.service).1
        = (none, some (fmt.Errorf_w "failed to create task: " cause)) := by
      simp [TaskServiceImpl.CreateTask, time.Before, hnot, World.Create, hcause]
    simp only [TaskController.CreateTask, hbind, hdate, Server.CreateTask,
      NewTaskServiceImpl, hsvc]
    rfl

/-- Witness of C22: at `noon` of day 739000 a task for February 29 of 2024 is
answered 500 as past, and on a table whose sequence is stale a task for
January 1 of 2025 is answered 500 with the cause of the failed insert. -/
theorem CreateTask_service_errors_are_500_witness :
    (TaskController.CreateTask Sample.service
        (.ok { Title := "pay rent", Description := "", DateString := "2024-02-29" })
        Sample.server).1
      = .JSON 500
          { Status := "error", Message := "task date cannot be in the past", Data := none }
      ∧ (TaskController.CreateTask Sample.service
          (.ok { Title := "pay rent", Description := "", DateString := "2025-01-01" })
          { service := Sample.stale, calls := [] }).1
        = .JSON 500
            { Status := "error",
              Message := "failed to create task: "
                ++ "duplicate key value violates unique constraint",
              Data := none } :=
  ⟨((CreateTask_service_errors_are_500 (NewTaskRepositoryImpl Sample.noon) Sample.noon
      (.ok { Title := "pay rent", Description := "", DateString := "2024-02-29" })
      { Title := "pay rent", Description := "", DateString := "2024-02-29" }
      (time.Date 2024 2 29) Sample.server (by rfl) (by decide)).1 (by decide)).1,
    (CreateTask_service_errors_are_500 (NewTaskRepositoryImpl Sample.noon) Sample.noon
      (.ok { Title := "pay rent", Description := "", DateString := "2025-01-01" })
      { Title := "pay rent", Description := "", DateString := "2025-01-01" }
      (time.Date 2025 1 1) { service := Sample.stale, calls := [] } (by rfl) (by decide)).2
      (by decide) (errors.New "duplicate key value violates unique constraint")
      (by decide)⟩

end CreateErrors

section Completed

variable {ω : Type}

/-- The completed filter of `convertToServiceFilter` is the parsed parameter,
absent when the parameter is absent or does not parse. -/
theorem convertToServiceFilter_Completed_eq (req : dto.TaskFilterRequest) :
    (convertToServiceFilter req).Completed = req.Completed.bind strconv.ParseBool := by
  rcases req with ⟨c, df, dt, l, o⟩
  simp only [convertToServiceFilter]
  cases c <;> cases df <;> cases dt <;> cases l <;> cases o <;> simp only [] <;>
    repeat' split
  all_goals simp_all

/-- C23: for every query-string filter request, the completed filter that
`convertToServiceFilter` returns is `strconv.ParseBool` of the parameter when
it is present and parses and absent otherwise: true for "true", false for
"false", absent for no parameter and for every string outside the twelve
spellings `ParseBool` accepts; the function has no error result, and the list
handler calls the service with its filter whatever the parameter is. -/
theorem convertToServiceFilter_completed_filter (req : dto.TaskFilterRequest)
    (service : TaskService ω) (c : Server ω) :
    (convertToServiceFilter req).Completed = req.Completed.bind strconv.ParseBool
      ∧ (convertToServiceFilter { req with Completed := some "true" }).Completed = some true
      ∧ (convertToServiceFilter { req with Completed := some "false" }).Completed = some false
      ∧ (convertToServiceFilter { req with Completed := none }).Completed = none
      ∧ (∀ s : String,
          strconv.ParseBool s = none
            ↔ s ∉ ["1", "t", "T", "TRUE", "true", "True",
                   "0", "f", "F", "FALSE", "false", "False"])
      ∧ (∀ s : String, strconv.ParseBool s = none →
          (convertToServiceFilter { req with Completed := some s }).Completed = none)
      ∧ (TaskController.ListTasks service (.ok req) c).2.calls
          = c.calls ++ [.ListTasks (convertToServiceFilter req)] := by
  refine ⟨convertToServiceFilter_Completed_eq req, ?_, ?_, ?_, ?_, ?_, ?_⟩
  · rw [convertToServiceFilter_Completed_eq]
    show strconv.ParseBool "true" = some true
    decide
  · rw [convertToServiceFilter_Completed_eq]
    show strconv.ParseBool "false" = some false
    decide
  · rw [convertToServiceFilter_Completed_eq]
    rfl
  · intro s
    unfold strconv.ParseBool
    by_cases h1 : s ∈ ["1", "t", "T", "TRUE", "true", "True"]
    · simp only [h1, if_true]
      constructor
      · intro h; cases h
      · intro h
        exact absurd (List.mem_append_left _ h1) h
    · by_cases h2 : s ∈ ["0", "f", "F", "FALSE", "false", "False"]
      · simp only [h1, h2, if_true, if_false]
        constructor
        · intro h; cases h
        · intro h
          exact absurd (List.mem_append_right ["1", "t", "T", "TRUE", "true", "True"] h2) h
      · simp only [h1, h2, if_false, true_iff]
        intro h
        rcases List.mem_append.mp
            (show s ∈ ["1", "t", "T", "TRUE", "true", "True"]
              ++ ["0", "f", "F", "FALSE", "false", "False"] from h) with h | h
        · exact h1 h
        · exact h2 h
  · intro s hs
    rw [convertToServiceFilter_Completed_eq]
    exact hs
  · simp only [TaskController.ListTasks, Server.ListTasks]
    split <;> rfl

/-- Witness of C23: "yes" is no spelling `ParseBool` accepts, and a request
with `completed=yes` is listed without a completed filter. -/
theorem convertToServiceFilter_completed_filter_witness :
    strconv.ParseBool "yes" = none
      ∧ (convertToServiceFilter
          { Completed := some "yes", DateFrom := none, DateTo := none, Limit := none,
            Offset := none }).Completed = none :=
  ⟨by decide,
    (convertToServiceFilter_completed_filter
      { Completed := none, DateFrom := none, DateTo := none, Limit := none, Offset := none }
      Sample.service Sample.server).2.2.2.2.2.1 "yes" (by decide)⟩

end Completed

section Cutoff

variable {σ : Type}

/-- The duration `24 * time.Hour` in nanoseconds. -/
theorem day_eq : 24 * time.Hour = 86400000000000 := by
  decide

/-- The date test of `CreateTask`: the past-date error is returned exactly for
a date before the current time truncated to 24 hours. -/
theorem CreateTask_past_error_iff (repo : TaskRepository σ) (now : Time)
    (req : dto.CreateTaskServiceRequest) (w : World σ) :
    (TaskServiceImpl.CreateTask repo now req w).1.2
        = some (errors.New "task date cannot be in the past")
      ↔ req.Date < time.Truncate now (24 * time.Hour) := by
  constructor
  · intro h
    by_contra hnot
    simp only [TaskServiceImpl.CreateTask, time.Before, hnot, decide_False,
      Bool.false_eq_true, if_false] at h
    split at h
    · simp [fmt.Errorf_w, errors.New] at h
    · simp at h
  · intro hpast
    simp [TaskServiceImpl.CreateTask, time.Before, hpast]

/-- C24: the instant `CreateTask` compares the date with is `now` minus `now`
modulo 24 hours counted from the zero time, which is the start of the UTC day
of `now`; a date is turned down as past exactly when it is earlier than that,
and otherwise handed to the repository; so a date parsed from a date string,
a UTC midnight, is turned down exactly when its UTC day is before the UTC day
of `now`. The server's time zone takes no part: with a local clock 3 hours
ahead at 22:00 UTC the current UTC date is accepted though it is yesterday
locally, and with one 5 hours behind at 02:00 UTC the current UTC date is
accepted though it is tomorrow locally, while the local date is turned down. -/
theorem CreateTask_cutoff_is_start_of_UTC_day (repo : TaskRepository σ) (now : Time)
    (req : dto.CreateTaskServiceRequest) (w : World σ) :
    time.Truncate now (24 * time.Hour) = now - now % (24 * time.Hour)
      ∧ time.Truncate now (24 * time.Hour) = Spec.utcDay now * (24 * time.Hour)
      ∧ time.Truncate now (24 * time.Hour) ≤ now
      ∧ now < time.Truncate now (24 * time.Hour) + 24 * time.Hour
      ∧ ((TaskServiceImpl.CreateTask repo now req w).1.2
            = some (errors.New "task date cannot be in the past")
          ↔ req.Date < now - now % (24 * time.Hour))
      ∧ (¬ req.Date < now - now % (24 * time.Hour) →
          (TaskServiceImpl.CreateTask repo now req w).2.calls
            = w.calls ++ [.Create (TaskServiceImpl.newTask req)])
      ∧ (∀ value : String, time.Parse value = some req.Date →
          ((TaskServiceImpl.CreateTask repo now req w).1.2
              = some (errors.New "task date cannot be in the past")
            ↔ Spec.utcDay req.Date < Spec.utcDay now))
      ∧ (time.Parse "2024-04-25" = some Sample.today
          ∧ Spec.localDay (3 * time.Hour) (Sample.today + 22 * time.Hour)
              = Spec.utcDay Sample.today + 1
          ∧ ¬ Sample.today < time.Truncate (Sample.today + 22 * time.Hour) (24 * time.Hour)
          ∧ Spec.localDay (-(5 * time.Hour)) (Sample.today + 2 * time.Hour)
              = Spec.utcDay Sample.today - 1
          ∧ ¬ Sample.today < time.Truncate (Sample.today + 2 * time.Hour) (24 * time.Hour)
          ∧ Sample.today - 24 * time.Hour
              < time.Truncate (Sample.today + 2 * time.Hour) (24 * time.Hour)) := by
  have htrunc : time.Truncate now (24 * time.Hour) = now - now % (24 * time.Hour) := by
    unfold time.Truncate
    rw [day_eq]
    simp
  have hiff := CreateTask_past_error_iff repo now req w
  have hfloor : ∀ n : Int,
      n - n % 86400000000000 = n / 86400000000000 * 86400000000000
        ∧ n - n % 86400000000000 ≤ n
        ∧ n < n - n % 86400000000000 + 86400000000000 := by
    intro n
    omega
  have hdays : ∀ d n : Int, d % 86400000000000 = 0 →
      (d < n - n % 86400000000000 ↔ d / 86400000000000 < n / 86400000000000) := by
    intro d n hd
    omega
  refine ⟨htrunc, ?_, ?_, ?_, ?_, ?_, ?_, ?_⟩
  · rw [htrunc]
    unfold Spec.utcDay
    rw [day_eq]
    exact (hfloor now).1
  · rw [htrunc, day_eq]
    exact (hfloor now).2.1
  · rw [htrunc, day_eq]
    exact (hfloor now).2.2
  · rw [← htrunc]
    exact hiff
  · intro hnot
    rw [← htrunc] at hnot
    simp only [TaskServiceImpl.CreateTask, time.Before, hnot, decide_False,
      Bool.false_eq_true, if_false, World.Create]
    split <;> rfl
  · intro value hvalue
    rw [hiff, htrunc]
    have hmid := (Parse_midnight value req.Date hvalue).1
    unfold Spec.utcDay
    rw [day_eq] at hmid ⊢
    exact hdays req.Date now hmid
  · decide

/-- Witness of C24: at `noon` of day 739000 a task dated the midnight that
starts the day is handed to the repository. -/
theorem CreateTask_cutoff_is_start_of_UTC_day_witness :
    (TaskServiceImpl.CreateTask (NewTaskRepositoryImpl 5) Sample.noon
        { Title := "water plants", Description := "", Date := Sample.today }
        Sample.world).2.calls
      = Sample.world.calls ++
        [.Create (TaskServiceImpl.newTask
          { Title := "water plants", Description := "", Date := Sample.today })] :=
  (CreateTask_cutoff_is_start_of_UTC_day (NewTaskRepositoryImpl 5) Sample.noon
    { Title := "water plants", Description := "", Date := Sample.today }
    Sample.world).2.2.2.2.2.1 (by decide)

end Cutoff

section MissingTask

/-- C25: on the table model, for an id under which no row is stored that is not
deleted and an update request with at least one field, the repository's
`Update` reports no error and leaves the table as it is, and `UpdateTask`
returns a nil task and the not-found error of the re-read, the very
`gorm.ErrRecordNotFound` that `GetByID` returns, after the two calls `Update`
and `GetByID`; whereas over any repository an error of `Update` is returned
as "error while updating: " followed by the cause's message, after the one
call `Update`. -/
theorem UpdateTask_of_missing_task (clock : Time) (id : Nat)
    (req : dto.UpdateTaskServiceRequest) (w : World gorm.DB)
    (hmissing : ∀ t ∈ w.store.tasks, t.Model.ID = id → t.Model.DeletedAt ≠ none)
    (hsome : req.Title ≠ none ∨ req.Description ≠ none ∨ req.Date ≠ none
      ∨ req.Completed ≠ none) :
    taskRepository.Update clock id (TaskServiceImpl.updatesOf req) w.store = (none, w.store)
      ∧ (taskRepository.GetByID id w.store).1 = (none, some gorm.ErrRecordNotFound)
      ∧ TaskServiceImpl.UpdateTask (NewTaskRepositoryImpl clock) id req w
        = ((none, some gorm.ErrRecordNotFound),
            { store := w.store
              calls := w.calls ++
                [.Update id (TaskServiceImpl.updatesOf req), .GetByID id] })
      ∧ gorm.ErrRecordNotFound.Error = "record not found"
      ∧ ∀ (σ : Type) (repo : TaskRepository σ) (v : World σ) (cause : GoError),
          (repo.Update id (TaskServiceImpl.updatesOf req) v.store).1 = some cause →
          (TaskServiceImpl.UpdateTask repo id req v).1
              = (none, some (fmt.Errorf_w "error while updating: " cause))
            ∧ (fmt.Errorf_w "error while updating: " cause).Error
              = "error while updating: " ++ cause.Error
            ∧ (TaskServiceImpl.UpdateTask repo id req v).2.calls
              = v.calls ++ [.Update id (TaskServiceImpl.updatesOf req)] := by
  have hlen : ¬ mapLen (TaskServiceImpl.updatesOf req) = 0 := by
    rw [mapLen_updatesOf_eq_zero]
    tauto
  have hupdate : taskRepository.Update clock id (TaskServiceImpl.updatesOf req) w.store
      = (none, w.store) := by
    rw [Update_updatesOf]
    have hmap : w.store.tasks.map (fun t =>
        if (decide (t.Model.ID = id) && t.Model.DeletedAt.isNone) = true then
          { Model := { t.Model with UpdatedAt := clock }
            Title := req.Title.getD t.Title
            Description := req.Description.getD t.Description
            Date := req.Date.getD t.Date
            Completed := req.Completed.getD t.Completed }
        else t) = w.store.tasks := by
      rw [List.map_congr_left (g := fun t => t)]
      · exact List.map_id'' (fun _ => rfl) w.store.tasks
      · intro t ht
        have hc : ¬ (decide (t.Model.ID = id) && t.Model.DeletedAt.isNone) = true := by
          intro hc
          simp only [Bool.and_eq_true, decide_eq_true_eq, Option.isNone_iff_eq_none] at hc
          exact hmissing t ht hc.1 hc.2
        rw [if_neg hc]
    rw [hmap]
  have hget := GetByID_of_deleted id w.store hmissing
  have hgetstore : (taskRepository.GetByID id w.store).2 = w.store := by
    simp only [taskRepository.GetByID]
    split <;> rfl
  refine ⟨hupdate, hget, ?_, rfl, ?_⟩
  · simp only [TaskServiceImpl.UpdateTask, beq_iff_eq, hlen, if_false, World.Update,
      World.GetByID, NewTaskRepositoryImpl, hupdate]
    refine Prod.ext hget ?_
    simp only [hgetstore, List.append_assoc, List.singleton_append]
  · intro σ repo v cause hcause
    refine ⟨?_, rfl, ?_⟩
    · simp only [TaskServiceImpl.UpdateTask, beq_iff_eq, hlen, if_false, World.Update, hcause]
    · simp only [TaskServiceImpl.UpdateTask, beq_iff_eq, hlen, if_false, World.Update, hcause]

/-- Witness of C25: a new title for the deleted task 2 of the sample table
changes nothing and comes back as record not found. -/
theorem UpdateTask_of_missing_task_witness :
    (∀ t ∈ Sample.world.store.tasks, t.Model.ID = 2 → t.Model.DeletedAt ≠ none)
      ∧ TaskServiceImpl.UpdateTask (NewTaskRepositoryImpl 9) 2
          { Title := some "buy oat milk", Description := none, Date := none,
            Completed := none } Sample.world
        = ((none, some gorm.ErrRecordNotFound),
            { store := Sample.world.store
              calls := Sample.world.calls ++
                [.Update 2
                  (TaskServiceImpl.updatesOf
                    { Title := some "buy oat milk", Description := none, Date := none,
                      Completed := none }),
                 .GetByID 2] }) :=
  ⟨by decide,
    (UpdateTask_of_missing_task 9 2
      { Title := some "buy oat milk", Description := none, Date := none, Completed := none }
      Sample.world (by decide) (Or.inl (by decide))).2.2.1⟩

end MissingTask

section UpdateDate

variable {σ : Type}

/-- What `UpdateTask` returns on the table model for a task that `GetByID` finds
and a request with at least one field: the found row with the supplied fields
set and the update time stamped. -/
theorem UpdateTask_table_result (clock : Time) (id : Nat)
    (req : dto.UpdateTaskServiceRequest) (w : World gorm.DB) (old : models.Task)
    (hold : (taskRepository.GetByID id w.store).1 = (some old, none))
    (hsome : req.Title ≠ none ∨ req.Description ≠ none ∨ req.Date ≠ none
      ∨ req.Completed ≠ none) :
    (TaskServiceImpl.UpdateTask (NewTaskRepositoryImpl clock) id req w).1
      = (some
          { Model := { old.Model with UpdatedAt := clock }
            Title := req.Title.getD old.Title
            Description := req.Description.getD old.Description
            Date := req.Date.getD old.Date
            Completed := req.Completed.getD old.Completed },
         none) := by
  have hlen : ¬ mapLen (TaskServiceImpl.updatesOf req) = 0 := by
    rw [mapLen_updatesOf_eq_zero]
    tauto
  have hfind : w.store.tasks.find?
      (gorm.softDeleteScope (gorm.Query.Where [] (.idEq id))).holds = some old := by
    simp only [taskRepository.GetByID] at hold
    cases hc : w.store.tasks.find?
        (gorm.softDeleteScope (gorm.Query.Where [] (.idEq id))).holds with
    | none => simp [hc] at hold
    | some t => simp [hc] at hold; simp [hold]
  have hcond := List.find?_some hfind
  rw [idQuery_holds] at hcond
  have hget := GetByID_map (fun t =>
      if decide (t.Model.ID = id) && t.Model.DeletedAt.isNone then
        { Model := { t.Model with UpdatedAt := clock }
          Title := req.Title.getD t.Title
          Description := req.Description.getD t.Description
          Date := req.Date.getD t.Date
          Completed := req.Completed.getD t.Completed }
      else t) id w.store
    (by
      intro t
      dsimp only
      by_cases hc : (decide (t.Model.ID = id) && t.Model.DeletedAt.isNone) = true
      · rw [if_pos hc]
        exact ⟨rfl, rfl⟩
      · rw [if_neg hc]
        exact ⟨rfl, rfl⟩)
  rw [hold] at hget
  simp only [Option.map_some', if_pos hcond] at hget
  simp only [TaskServiceImpl.UpdateTask, beq_iff_eq, hlen, if_false, World.Update,
    World.GetByID, NewTaskRepositoryImpl, Update_updatesOf]
  exact hget

/-- C26: for an id parameter that parses and an update body that binds with a
date string that parses, to whatever date: the update handler calls the
service with that date, `TaskServiceImpl.UpdateTask` passes it to the
repository's `Update` under the key "date" as it is, and the reading of the
clock plays no part in the answer; on the table model a task that `GetByID`
finds comes back under 200 with that date. So a task created today for today
and then updated to January 1 of 2000 is stored with a date before today and
before the day of its creation. -/
theorem UpdateTask_accepts_any_date (repo : TaskRepository σ) (now otherNow : Time)
    (idParam : String) (id : Nat) (decoded : Except GoError dto.UpdateTaskRequest)
    (req : dto.UpdateTaskRequest) (dateString : String) (date : Time)
    (c : Server (World σ))
    (hparse : strconv.ParseUint idParam 10 32 = some id)
    (hbind : gin.ShouldBindJSON decoded "UpdateTaskRequest"
      dto.UpdateTaskRequest.failedTags = .ok req)
    (hstring : req.DateString = some dateString)
    (hdate : time.Parse dateString = some date) :
    (TaskController.UpdateTask (NewTaskServiceImpl repo now) idParam decoded c).2.calls
        = c.calls ++
          [.UpdateTask id
            { Title := req.Title, Description := req.Description, Date := some date,
              Completed := req.Completed }]
      ∧ (∃ rest,
          (TaskController.UpdateTask (NewTaskServiceImpl repo now) idParam decoded
              c).2.service.calls
            = c.service.calls ++
              (.Update id
                (TaskServiceImpl.updatesOf
                  { Title := req.Title, Description := req.Description, Date := some date,
                    Completed := req.Completed }) :: rest))
      ∧ mapGet
          (TaskServiceImpl.updatesOf
            { Title := req.Title, Description := req.Description, Date := some date,
              Completed := req.Completed }) "date"
        = some (Value.timePtr date)
      ∧ TaskController.UpdateTask (NewTaskServiceImpl repo now) idParam decoded c
        = TaskController.UpdateTask (NewTaskServiceImpl repo otherNow) idParam decoded c
      ∧ (∀ (clock : Time) (d : Server (World gorm.DB)) (old : models.Task),
          (taskRepository.GetByID id d.service.store).1 = (some old, none) →
          (TaskController.UpdateTask (NewTaskServiceImpl (NewTaskRepositoryImpl clock) now)
              idParam decoded d).1
            = .JSON 200
                (dto.SuccessResponse "Task updated successfully"
                  (some (.task
                    { Model := { old.Model with UpdatedAt := clock }
                      Title := req.Title.getD old.Title
                      Description := req.Description.getD old.Description
                      Date := date
                      Completed := req.Completed.getD old.Completed }))))
      ∧ ((transport.serve
            [(Sample.noon, .create
                (.ok { Title := "water plants", Description := "",
                       DateString := "2024-04-25" })),
             (Sample.noon, .update "1"
                (.ok { Title := none, Description := none,
                       DateString := some "2000-01-01", Completed := none }))]
            { service := Sample.fresh, calls := [] }).service.store.tasks
          = [{ Model := { ID := 1, CreatedAt := Sample.noon, UpdatedAt := Sample.noon,
                          DeletedAt := none }
               Title := "water plants", Description := "", Date := time.Date 2000 1 1,
               Completed := false }]
        ∧ time.Date 2000 1 1 < time.Truncate Sample.noon (24 * time.Hour)) := by
  have hsome : (some date : Option Time) ≠ none := by simp
  have hlen : ¬ mapLen
      (TaskServiceImpl.updatesOf
        { Title := req.Title, Description := req.Description, Date := some date,
          Completed := req.Completed }) = 0 := by
    rw [mapLen_updatesOf_eq_zero]
    simp
  refine ⟨?_, ?_, ?_, ?_, ?_, ?_⟩
  · simp only [TaskController.UpdateTask, hparse, hbind, TaskController.serviceRequestOf,
      hstring, hdate, Server.UpdateTask]
    split
    · split <;> rfl
    · split <;> rfl
  · have hstate : (TaskController.UpdateTask (NewTaskServiceImpl repo now) idParam decoded
        c).2.service
        = (TaskServiceImpl.UpdateTask repo id
            { Title := req.Title, Description := req.Description, Date := some date,
              Completed := req.Completed } c.service).2 := by
      simp only [TaskController.UpdateTask, hparse, hbind, TaskController.serviceRequestOf,
        hstring, hdate, Server.UpdateTask, NewTaskServiceImpl]
      split
      · split <;> rfl
      · split <;> rfl
    rw [hstate]
    simp only [TaskServiceImpl.UpdateTask, beq_iff_eq, hlen, if_false, World.Update]
    split
    · exact ⟨[], rfl⟩
    · exact ⟨[.GetByID id], by simp [World.GetByID]⟩
  · rw [updatesOf_eq]
    rcases req with ⟨_ | title, _ | description, ds, _ | completed⟩ <;>
      simp [mapGet, List.find?]
  · simp only [TaskController.UpdateTask, hparse, hbind, TaskController.serviceRequestOf,
      hstring, hdate, Server.UpdateTask, NewTaskServiceImpl]
  · intro clock d old hold
    have hres := UpdateTask_table_result clock id
      { Title := req.Title, Description := req.Description, Date := some date,
        Completed := req.Completed } d.service old hold (Or.inr (Or.inr (Or.inl hsome)))
    simp only [TaskController.UpdateTask, hparse, hbind, TaskController.serviceRequestOf,
      hstring, hdate, Server.UpdateTask, NewTaskServiceImpl, hres]
    rfl
  · exact ⟨by decide, by decide⟩

/-- Witness of C26: task 1 of the sample table, dated today, is moved to
January 1 of 2000 by an update at `noon`, answered 200. -/
theorem UpdateTask_accepts_any_date_witness :
    time.Parse "2000-01-01" = some (time.Date 2000 1 1)
      ∧ time.Date 2000 1 1 < time.Truncate Sample.noon (24 * time.Hour)
      ∧ (TaskController.UpdateTask
          (NewTaskServiceImpl (NewTaskRepositoryImpl Sample.noon) Sample.noon) "1"
          (.ok { Title := none, Description := none, DateString := some "2000-01-01",
                 Completed := none })
          Sample.server).1
        = .JSON 200
            (dto.SuccessResponse "Task updated successfully"
              (some (.task
                { Model := { Sample.rent.Model with UpdatedAt := Sample.noon }
                  Title := (none : Option String).getD Sample.rent.Title
                  Description := (none : Option String).getD Sample.rent.Description
                  Date := time.Date 2000 1 1
                  Completed := (none : Option Bool).getD Sample.rent.Completed }))) :=
  ⟨by decide, by decide,
    (UpdateTask_accepts_any_date (NewTaskRepositoryImpl Sample.noon) Sample.noon Sample.noon
      "1" 1
      (.ok { Title := none, Description := none, DateString := some "2000-01-01",
             Completed := none })
      { Title := none, Description := none, DateString := some "2000-01-01",
        Completed := none }
      "2000-01-01" (time.Date 2000 1 1) Sample.server (by decide) (by rfl) (by rfl)
      (by decide)).2.2.2.2.1 Sample.noon Sample.server Sample.rent (by decide)⟩

end UpdateDate

end TodoApi
